import Mathlib

/-!
# Chat session broker: the in-memory registry and the event handlers of `server.js`

A shallow embedding of `src/chat-backend/server.js` (and of the `name` validators of
`src/chat-backend/models/Room.js`).

* A connection handle (`ws`) and a Mongo `ObjectId` are opaque values; both are natural numbers
  here.
* A `roomId` arriving in an envelope is the JSON value as sent: a string (`RoomKey`) or `null`
  (`none`). The handlers keep that value as the key of `roomUsers` and as `currentRoom`, and
  compare it with `===`; only `Room.findById` casts it to an `ObjectId`. Two spellings of one
  identifier are therefore two keys that resolve to one `Room`, and a string that is no
  identifier makes `Room.findById` throw.
* `clients` and `roomUsers` are JavaScript `Map`s: association lists in insertion order. A
  JavaScript `Set` of names is a list in insertion order.
* The store is three collections and the counter from which identifiers are drawn. A store
  call can fail: a handler receives the number of store calls that succeed before one throws
  (`none`: none throws). An exception leaves the in-memory updates made before it in place and
  is caught by the `try/catch` of `ws.on('message')`.
* The `User` and `Message` schemas are not among the sources: a validation or cast failure of
  theirs is one of the failures of the store call that meets it.
* `new Date()` is an input (`now`).
* Every handler returns the new state and the list of `ws.send` calls it made, in order.
-/

namespace Chat

abbrev Conn := Nat
abbrev ObjectId := Nat

/-- A `roomId` as it arrives in an envelope. -/
abbrev RoomKey := String

/-! ## JavaScript strings -/

/-- The code points `String.prototype.trim` strips (WhiteSpace and LineTerminator). -/
def isJsWhiteSpace (c : Char) : Bool :=
  let n := c.toNat
  n == 0x09 || n == 0x0A || n == 0x0B || n == 0x0C || n == 0x0D || n == 0x20 || n == 0xA0 ||
  n == 0x1680 || (0x2000 ≤ n && n ≤ 0x200A) || n == 0x2028 || n == 0x2029 || n == 0x202F ||
  n == 0x205F || n == 0x3000 || n == 0xFEFF

/-- Strip the white space at both ends of a list of characters. -/
def trimChars (l : List Char) : List Char :=
  ((l.dropWhile isJsWhiteSpace).reverse.dropWhile isJsWhiteSpace).reverse

/-- The method `text.trim()`. -/
def jsTrim (s : String) : String := String.mk (trimChars s.data)

/-- The property `s.length`: the number of UTF-16 code units. -/
def jsLength (s : String) : Nat :=
  (s.data.map (fun c => if c.toNat < 0x10000 then 1 else 2)).sum

/-- The test `!text || text.trim().length === 0` of the handlers. -/
def isBlank (text : String) : Bool :=
  text == "" || jsLength (jsTrim text) == 0

/-- The value of a hexadecimal digit, in either letter case. -/
def hexDigit (c : Char) : Option Nat :=
  let n := c.toNat
  if 48 ≤ n ∧ n ≤ 57 then some (n - 48)
  else if 97 ≤ n ∧ n ≤ 102 then some (n - 87)
  else if 65 ≤ n ∧ n ≤ 70 then some (n - 55)
  else none

/-- The number a list of hexadecimal digits denotes after the digits `acc`. -/
def hexValue : List Char → Nat → Option Nat
  | [], acc => some acc
  | c :: rest, acc =>
    match hexDigit c with
    | none => none
    | some d => hexValue rest (16 * acc + d)

/-- The cast of a string to an `ObjectId` that a query on `_id` applies (Mongoose code, not
among the sources): a string of 24 hexadecimal digits, in either letter case, denotes an
identifier; on any other string the cast fails (CastError). Releases of the library that also
take a string of 12 characters as an identifier differ on those strings only. -/
def castObjectId (key : RoomKey) : Option ObjectId :=
  if key.data.length = 24 then hexValue key.data 0 else none

/-- The test `if (client.currentRoom)`: `null` and the empty string are falsy. -/
def isTruthy : Option RoomKey → Bool
  | none => false
  | some key => key != ""

/-! ## JavaScript `Map` and `Set` -/

/-- The method `m.get(key)`. -/
def mapGet {κ β : Type} [DecidableEq κ] : List (κ × β) → κ → Option β
  | [], _ => none
  | p :: m, key => if p.1 = key then some p.2 else mapGet m key

/-- The method `m.has(key)`. -/
def mapHas {κ β : Type} [DecidableEq κ] (m : List (κ × β)) (key : κ) : Bool :=
  (mapGet m key).isSome

/-- The method `m.set(key, v)`: an existing key keeps its place. -/
def mapSet {κ β : Type} [DecidableEq κ] (m : List (κ × β)) (key : κ) (v : β) : List (κ × β) :=
  if mapHas m key then m.map (fun p => if p.1 = key then (p.1, v) else p) else m ++ [(key, v)]

/-- The method `m.delete(key)`. -/
def mapDelete {κ β : Type} [DecidableEq κ] (m : List (κ × β)) (key : κ) : List (κ × β) :=
  m.filter (fun p => decide (p.1 ≠ key))

/-- An in-place mutation of the value held under `key`. -/
def mapModify {κ β : Type} [DecidableEq κ] (m : List (κ × β)) (key : κ) (f : β → β) :
    List (κ × β) :=
  m.map (fun p => if p.1 = key then (p.1, f p.2) else p)

/-- The method `set.add(x)`. -/
def setAdd (l : List String) (x : String) : List String :=
  if x ∈ l then l else l ++ [x]

/-- The method `set.delete(x)`. -/
def setDelete (l : List String) (x : String) : List String :=
  l.filter (fun y => decide (y ≠ x))

/-! ## Data model -/

/-- The value held in `clients` for a connection. -/
structure Client where
  userId : ObjectId
  username : String
  currentRoom : Option RoomKey
deriving DecidableEq, Repr

/-- Modelled from the spec: the `User` document (`models/User.js` is not among the sources):
username, online flag, last-seen timestamp. -/
structure User where
  id : ObjectId
  username : String
  isOnline : Bool
  lastSeen : Nat
deriving DecidableEq, Repr

/-- The `Room` document of `models/Room.js`. -/
structure Room where
  id : ObjectId
  name : String
  createdBy : ObjectId
  userCount : Nat
  createdAt : Nat
deriving DecidableEq, Repr

/-- Modelled from the spec: the `Message` document (`models/Message.js` is not among the
sources): room id, author identity and display name, text, timestamp. The room id is kept as
the handler passes it. -/
structure Message where
  id : ObjectId
  roomId : Option RoomKey
  userId : ObjectId
  username : String
  text : String
  timestamp : Nat
deriving DecidableEq, Repr

/-- The outbound envelopes. -/
inductive Envelope where
  | authenticated (userId : ObjectId) (username : String)
  | auth_error (message : String)
  | error (message : String)
  | joined_room (roomId : Option RoomKey) (roomName : String)
  | user_joined (username : String) (onlineUsers : List String)
  | user_left (username : String) (onlineUsers : List String)
  | new_message (id : ObjectId) (username : String) (text : String) (timestamp : Nat)
  | room_created (id : ObjectId) (name : String) (userCount : Nat)
  | room_list_updated
  | rooms_list (data : List (ObjectId × String × Nat × Nat))
  | messages_history (data : List Message)
deriving DecidableEq, Repr

/-- The process state: the two module-level maps, the sockets whose `readyState` is `OPEN`,
and the store. -/
structure State where
  clients : List (Conn × Client)
  roomUsers : List (RoomKey × List String)
  openConns : List Conn
  users : List User
  rooms : List Room
  messages : List Message
  nextId : Nat
deriving DecidableEq, Repr

/-- What running a handler gives: the state, the `ws.send` calls in order, what is left of the
store-call budget, and whether the handler threw. -/
structure Outcome where
  state : State
  sent : List (Conn × Envelope)
  budget : Option Nat
  threw : Bool
deriving DecidableEq, Repr

/-- One store call: `none` when it throws, otherwise the budget left. -/
def storeCall : Option Nat → Option (Option Nat)
  | none => some none
  | some 0 => none
  | some (n + 1) => some (some n)

/-- A handler that throws in state `s` after the sends `sent`. -/
def throwIn (s : State) (sent : List (Conn × Envelope)) : Outcome :=
  ⟨s, sent, some 0, true⟩

/-! ## The store -/

/-- The query `User.findOne({ username })`. -/
def User.findOne (users : List User) (username : String) : Option User :=
  users.find? (fun u => decide (u.username = username))

/-- The query `User.findById(id)`. -/
def User.findById (users : List User) (id : ObjectId) : Option User :=
  users.find? (fun u => decide (u.id = id))

/-- The call `user.save()` after setting `isOnline` and `lastSeen`. -/
def User.save (users : List User) (id : ObjectId) (isOnline : Bool) (lastSeen : Nat) :
    List User :=
  users.map (fun u => if u.id = id then { u with isOnline := isOnline, lastSeen := lastSeen }
    else u)

/-- The query `Room.findById(roomId)`: `none` when the cast of `roomId` fails and the query
throws; otherwise what the query resolves to, the room with the identifier that `roomId`
denotes or `null`. The value `null` resolves to no room. -/
def Room.findById (rooms : List Room) (roomId : Option RoomKey) : Option (Option Room) :=
  match roomId with
  | none => some none
  | some key =>
    match castObjectId key with
    | none => none
    | some id => some (rooms.find? (fun room => decide (room.id = id)))

/-- The query `Room.findOne({ name })`. -/
def Room.findOne (rooms : List Room) (name : String) : Option Room :=
  rooms.find? (fun room => decide (room.name = name))

/-- The call `room.save()` after setting `userCount`. -/
def Room.save (rooms : List Room) (id : ObjectId) (userCount : Nat) : List Room :=
  rooms.map (fun room => if room.id = id then { room with userCount := userCount } else room)

/-- The validators of `roomSchema.name` on the value the `trim` setter leaves: `required`,
`minlength: 2`, `maxlength: 30`, and the `unique` index. -/
def Room.nameValid (rooms : List Room) (name : String) : Bool :=
  name != "" && decide (2 ≤ jsLength name) && decide (jsLength name ≤ 30) &&
  !(rooms.any (fun room => decide (room.name = name)))

/-- The query `Message.find({ roomId }).sort({ timestamp: -1 }).limit(limit)`: newest first; a
limit of 0 is no limit. -/
def Message.query (messages : List Message) (roomId : Option RoomKey) (limit : Nat) :
    List Message :=
  let found := (messages.filter (fun m => decide (m.roomId = roomId))).insertionSort
    (fun a b => a.timestamp ≥ b.timestamp)
  if limit = 0 then found else found.take limit

/-! ## Broadcasting -/

/-- The function `broadcastToRoom(roomId, message, excludeWs = null)`. -/
def broadcastToRoom (s : State) (roomId : Option RoomKey) (message : Envelope)
    (excludeWs : Option Conn) : List (Conn × Envelope) :=
  (s.clients.filter (fun p => decide (p.2.currentRoom = roomId) && decide (some p.1 ≠ excludeWs)
    && decide (p.1 ∈ s.openConns))).map (fun p => (p.1, message))

/-- The function `broadcast(message)`. -/
def broadcast (s : State) (message : Envelope) : List (Conn × Envelope) :=
  (s.clients.filter (fun p => decide (p.1 ∈ s.openConns))).map (fun p => (p.1, message))

/-! ## The handlers -/

/-- The test `Array.from(clients.values()).some(client => client.username === username)`. -/
def isUsernameTaken (s : State) (username : String) : Bool :=
  s.clients.any (fun p => decide (p.2.username = username))

/-- The assignment `client.currentRoom = room` on the object registered for `ws`. -/
def setCurrentRoom (s : State) (ws : Conn) (room : Option RoomKey) : State :=
  { s with clients := mapModify s.clients ws (fun c => { c with currentRoom := room }) }

/-- The statement `roomUsers.get(roomId).delete(username)`. -/
def roomUsersDelete (s : State) (r : RoomKey) (username : String) : State :=
  { s with roomUsers := mapModify s.roomUsers r (fun names => setDelete names username) }

/-- The statements `if (!roomUsers.has(roomId)) roomUsers.set(roomId, new Set())` and
`roomUsers.get(roomId).add(username)`. -/
def roomUsersAdd (s : State) (r : RoomKey) (username : String) : State :=
  let created := if mapHas s.roomUsers r then s.roomUsers else s.roomUsers ++ [(r, [])]
  { s with roomUsers := mapModify created r (fun names => setAdd names username) }

/-- The function `handleAuthentication(ws, { username })`. -/
def handleAuthentication (s : State) (ws : Conn) (username : String) (now : Nat)
    (budget : Option Nat) : Outcome :=
  if isUsernameTaken s username then
    ⟨s, [(ws, .auth_error "Username is already taken")], budget, false⟩
  else
    match storeCall budget with
    | none => throwIn s []
    | some b1 =>
      match storeCall b1 with
      | none => throwIn s []
      | some b2 =>
        match User.findOne s.users username with
        | none =>
          let s1 := { s with users := s.users ++ [User.mk s.nextId username true now],
                             nextId := s.nextId + 1 }
          ⟨{ s1 with clients := mapSet s1.clients ws ⟨s.nextId, username, none⟩ },
            [(ws, .authenticated s.nextId username)], b2, false⟩
        | some user =>
          let s1 := { s with users := User.save s.users user.id true now }
          ⟨{ s1 with clients := mapSet s1.clients ws ⟨user.id, username, none⟩ },
            [(ws, .authenticated user.id username)], b2, false⟩

/-- The function `handleLeaveRoom(ws, { roomId })`. -/
def handleLeaveRoom (s : State) (ws : Conn) (roomId : Option RoomKey) (budget : Option Nat) :
    Outcome :=
  match mapGet s.clients ws with
  | none => ⟨s, [], budget, false⟩
  | some client =>
    if client.currentRoom ≠ roomId then ⟨s, [], budget, false⟩
    else
      match roomId with
      | none => ⟨setCurrentRoom s ws none, [], budget, false⟩
      | some r =>
        match mapGet s.roomUsers r with
        | none => ⟨setCurrentRoom s ws none, [], budget, false⟩
        | some members =>
          let members1 := setDelete members client.username
          let s1 := roomUsersDelete s r client.username
          match storeCall budget with
          | none => throwIn s1 []
          | some b1 =>
            match Room.findById s1.rooms (some r) with
            | none => throwIn s1 []
            | some none =>
              ⟨setCurrentRoom s1 ws none,
                broadcastToRoom s1 (some r) (.user_left client.username members1) none,
                b1, false⟩
            | some (some room) =>
              match storeCall b1 with
              | none => throwIn s1 []
              | some b2 =>
                let s2 := { s1 with rooms := Room.save s1.rooms room.id members1.length }
                ⟨setCurrentRoom s2 ws none,
                  broadcastToRoom s2 (some r) (.user_left client.username members1) none,
                  b2, false⟩

/-- The function `handleJoinRoom(ws, { roomId })`. -/
def handleJoinRoom (s : State) (ws : Conn) (roomId : Option RoomKey) (budget : Option Nat) :
    Outcome :=
  match mapGet s.clients ws with
  | none => ⟨s, [(ws, .error "Not authenticated")], budget, false⟩
  | some client =>
    let left := if isTruthy client.currentRoom then
        handleLeaveRoom s ws client.currentRoom budget
      else ⟨s, [], budget, false⟩
    if left.threw then left
    else
      let s0 := left.state
      match storeCall left.budget with
      | none => throwIn s0 left.sent
      | some b1 =>
        match roomId, Room.findById s0.rooms roomId with
        | _, none => throwIn s0 left.sent
        | some r, some (some room) =>
          let s1 := setCurrentRoom s0 ws (some r)
          let s2 := roomUsersAdd s1 r client.username
          let members := (mapGet s2.roomUsers r).getD []
          match storeCall b1 with
          | none => throwIn s2 left.sent
          | some b2 =>
            let s3 := { s2 with rooms := Room.save s2.rooms room.id members.length }
            ⟨s3, left.sent ++ (ws, .joined_room (some r) room.name) ::
              broadcastToRoom s3 (some r) (.user_joined client.username members) (some ws),
              b2, false⟩
        | _, _ => ⟨s0, left.sent ++ [(ws, .error "Room not found")], b1, false⟩

/-- The function `handleSendMessage(ws, { roomId, text })`. -/
def handleSendMessage (s : State) (ws : Conn) (roomId : Option RoomKey) (text : String)
    (now : Nat) (budget : Option Nat) : Outcome :=
  match mapGet s.clients ws with
  | none => ⟨s, [(ws, .error "Not in this room")], budget, false⟩
  | some client =>
    if client.currentRoom ≠ roomId then ⟨s, [(ws, .error "Not in this room")], budget, false⟩
    else if isBlank text then ⟨s, [(ws, .error "Message cannot be empty")], budget, false⟩
    else
      match storeCall budget with
      | none => throwIn s []
      | some b1 =>
        let message : Message :=
          ⟨s.nextId, roomId, client.userId, client.username, jsTrim text, now⟩
        let s1 := { s with messages := s.messages ++ [message], nextId := s.nextId + 1 }
        ⟨s1, broadcastToRoom s1 roomId
          (.new_message message.id client.username message.text message.timestamp) none,
          b1, false⟩

/-- The function `handleCreateRoom(ws, { roomName })`. -/
def handleCreateRoom (s : State) (ws : Conn) (roomName : String) (now : Nat)
    (budget : Option Nat) : Outcome :=
  match mapGet s.clients ws with
  | none => ⟨s, [(ws, .error "Not authenticated")], budget, false⟩
  | some client =>
    if isBlank roomName then ⟨s, [(ws, .error "Room name cannot be empty")], budget, false⟩
    else
      match storeCall budget with
      | none => throwIn s []
      | some b1 =>
        match Room.findOne s.rooms (jsTrim roomName) with
        | some _ => ⟨s, [(ws, .error "Room already exists")], b1, false⟩
        | none =>
          let name := jsTrim (jsTrim roomName)
          if !Room.nameValid s.rooms name then throwIn s []
          else
            match storeCall b1 with
            | none => throwIn s []
            | some b2 =>
              let room : Room := ⟨s.nextId, name, client.userId, 0, now⟩
              let s1 := { s with rooms := s.rooms ++ [room], nextId := s.nextId + 1 }
              ⟨s1, (ws, .room_created room.id room.name room.userCount) ::
                broadcast s1 .room_list_updated, b2, false⟩

/-- The function `handleGetRooms(ws)`. -/
def handleGetRooms (s : State) (ws : Conn) (budget : Option Nat) : Outcome :=
  match storeCall budget with
  | none => throwIn s []
  | some b1 =>
    ⟨s, [(ws, .rooms_list (s.rooms.map (fun r => (r.id, r.name, r.userCount, r.createdAt))))],
      b1, false⟩

/-- The function `handleGetMessages(ws, { roomId, limit = 50 })`. -/
def handleGetMessages (s : State) (ws : Conn) (roomId : Option RoomKey) (limit : Option Nat)
    (budget : Option Nat) : Outcome :=
  match storeCall budget with
  | none => throwIn s []
  | some b1 =>
    ⟨s, [(ws, .messages_history (Message.query s.messages roomId (limit.getD 50)).reverse)],
      b1, false⟩

/-- The function `handleDisconnect(ws)`. -/
def handleDisconnect (s : State) (ws : Conn) (now : Nat) (budget : Option Nat) : Outcome :=
  match mapGet s.clients ws with
  | none => ⟨s, [], budget, false⟩
  | some client =>
    let left := if isTruthy client.currentRoom then
        handleLeaveRoom s ws client.currentRoom budget
      else ⟨s, [], budget, false⟩
    if left.threw then left
    else
      let s0 := left.state
      match storeCall left.budget with
      | none => throwIn s0 left.sent
      | some b1 =>
        match User.findById s0.users client.userId with
        | none => ⟨{ s0 with clients := mapDelete s0.clients ws }, left.sent, b1, false⟩
        | some user =>
          match storeCall b1 with
          | none => throwIn s0 left.sent
          | some b2 =>
            let s1 := { s0 with users := User.save s0.users user.id false now }
            ⟨{ s1 with clients := mapDelete s1.clients ws }, left.sent, b2, false⟩

/-! ## The event router -/

/-- A decoded inbound envelope; `unknown` is a type the `switch` has no case for, `malformed`
is data on which `JSON.parse` throws. -/
inductive Inbound where
  | authenticate (username : String)
  | join_room (roomId : Option RoomKey)
  | leave_room (roomId : Option RoomKey)
  | send_message (roomId : Option RoomKey) (text : String)
  | create_room (roomName : String)
  | get_rooms
  | get_messages (roomId : Option RoomKey) (limit : Option Nat)
  | unknown
  | malformed
deriving DecidableEq, Repr

/-- The `switch` of `ws.on('message')`. -/
def dispatch (s : State) (ws : Conn) (message : Inbound) (now : Nat) (budget : Option Nat) :
    Outcome :=
  match message with
  | .authenticate username => handleAuthentication s ws username now budget
  | .join_room roomId => handleJoinRoom s ws roomId budget
  | .leave_room roomId => handleLeaveRoom s ws roomId budget
  | .send_message roomId text => handleSendMessage s ws roomId text now budget
  | .create_room roomName => handleCreateRoom s ws roomName now budget
  | .get_rooms => handleGetRooms s ws budget
  | .get_messages roomId limit => handleGetMessages s ws roomId limit budget
  | .unknown => ⟨s, [], budget, false⟩
  | .malformed => throwIn s []

/-- The callback `ws.on('message')`: the `switch` inside `try`, and the generic reply of
`catch`. -/
def onMessage (s : State) (ws : Conn) (message : Inbound) (now : Nat) (budget : Option Nat) :
    Outcome :=
  let r := dispatch s ws message now budget
  if r.threw then
    ⟨r.state, r.sent ++ [(ws, .error "An error occurred processing your request")], r.budget,
      false⟩
  else r

/-- What the server reacts to: a new connection, a frame on a connection, a closed
connection. -/
inductive Event where
  | connection (ws : Conn)
  | message (ws : Conn) (m : Inbound)
  | close (ws : Conn)
deriving DecidableEq, Repr

/-- An event with what the environment decides while it is handled: the clock, and the number
of store calls that succeed before one fails (`none`: none fails). -/
structure Input where
  ev : Event
  now : Nat
  faultAt : Option Nat
deriving DecidableEq, Repr

/-- Handling one event to completion. A closed socket has left `OPEN` when `handleDisconnect`
runs. -/
def step (s : State) (i : Input) : Outcome :=
  match i.ev with
  | .connection ws =>
    ⟨{ s with openConns := if ws ∈ s.openConns then s.openConns else s.openConns ++ [ws] }, [],
      i.faultAt, false⟩
  | .message ws m => onMessage s ws m i.now i.faultAt
  | .close ws =>
    handleDisconnect { s with openConns := s.openConns.filter (fun c => decide (c ≠ ws)) } ws
      i.now i.faultAt

/-- The state of a started server: both maps empty, no socket, and the persisted store. -/
def boot (users : List User) (rooms : List Room) (messages : List Message) (nextId : Nat) :
    State :=
  ⟨[], [], [], users, rooms, messages, nextId⟩

/-- Handling a sequence of events one at a time. -/
def run (s : State) : List Input → State
  | [] => s
  | i :: rest => run (step s i).state rest

/-- An event during which every store call succeeds. -/
def ok (ev : Event) (now : Nat) : Input := ⟨ev, now, none⟩

/-! ## Invariants -/

/-- The invariant of the two maps: a connection is the key of one entry of `clients`, no two
entries hold the same username, the room of every session is a key of `roomUsers` and denotes
an identifier, and no set of names holds a name twice. -/
def Registry (clients : List (Conn × Client)) (roomUsers : List (RoomKey × List String)) :
    Prop :=
  (clients.map Prod.fst).Nodup ∧ (clients.map (fun p => p.2.username)).Nodup ∧
  (∀ p ∈ clients, ∀ r, p.2.currentRoom = some r →
    mapHas roomUsers r = true ∧ (castObjectId r).isSome = true) ∧
  ∀ r names, mapGet roomUsers r = some names → names.Nodup

/-- The invariant `Registry` of a state. -/
def WF (s : State) : Prop := Registry s.clients s.roomUsers

/-- The states a started server reaches by handling events one at a time, store failures
included. -/
inductive Reachable : State → Prop where
  | boot (users : List User) (rooms : List Room) (messages : List Message) (nextId : Nat) :
      Reachable (boot users rooms messages nextId)
  | step (s : State) (i : Input) : Reachable s → Reachable (step s i).state

/-- The members recorded for a room key: `roomUsers.get(r)`, empty when the key is absent. -/
def members (s : State) (r : RoomKey) : List String := (mapGet s.roomUsers r).getD []

/-- The membership invariant of the spec: the names recorded for a room are the usernames of the
sessions whose `currentRoom` is that room. -/
def MembershipMatches (s : State) : Prop :=
  ∀ (r : RoomKey) (n : String),
    n ∈ members s r ↔ ∃ p ∈ s.clients, p.2.currentRoom = some r ∧ p.2.username = n

/-- The number of sessions in `clients` whose `currentRoom` denotes the room with identifier
`id`. -/
def occupancy (s : State) (id : ObjectId) : Nat :=
  (s.clients.filter (fun p => decide (p.2.currentRoom.bind castObjectId = some id))).length

/-- The number of sessions in `clients` whose `currentRoom` is the key `r` as written. -/
def sessionsAt (s : State) (r : RoomKey) : Nat :=
  (s.clients.filter (fun p => decide (p.2.currentRoom = some r))).length

/-! ## Example runs -/

/-- The spelling of the identifier 1 that the server sends. -/
def key1 : RoomKey := "000000000000000000000001"

/-- The spelling of the identifier 10 that the server sends. -/
def keyTen : RoomKey := "00000000000000000000000a"

/-- The identifier 10 with its letter in upper case. -/
def keyTenUpper : RoomKey := "00000000000000000000000A"

/-- A connection authenticates, creates a room, joins it, and authenticates again under another
name. -/
def reauthTrace : List Input :=
  [ok (.connection 1) 0, ok (.message 1 (.authenticate "alice")) 1,
   ok (.message 1 (.create_room "general")) 2, ok (.message 1 (.join_room (some key1))) 3,
   ok (.message 1 (.authenticate "bob")) 4]

/-- One session, named alice. -/
def aliceTrace : List Input :=
  [ok (.connection 1) 0, ok (.connection 2) 0, ok (.message 1 (.authenticate "alice")) 1]

/-- Two open connections, one session in a room. -/
def roomTrace : List Input :=
  [ok (.connection 1) 0, ok (.connection 2) 0, ok (.message 1 (.authenticate "alice")) 1,
   ok (.message 1 (.create_room "general")) 2, ok (.message 1 (.join_room (some key1))) 3]

/-- Three messages in room 1 and one in room 10. -/
def historyState : State :=
  boot [] [] [⟨10, some key1, 0, "alice", "one", 5⟩, ⟨11, some keyTen, 0, "alice", "other", 6⟩,
    ⟨12, some key1, 0, "alice", "two", 7⟩, ⟨13, some key1, 0, "alice", "three", 9⟩] 14

/-- Alice is in the room she created; bob is authenticated and in no room. -/
def pairTrace : List Input :=
  [ok (.connection 1) 0, ok (.connection 2) 0, ok (.message 1 (.authenticate "alice")) 1,
   ok (.message 1 (.create_room "general")) 2, ok (.message 2 (.authenticate "bob")) 3,
   ok (.message 1 (.join_room (some key1))) 4]

/-- Alice and bob are both in the room. -/
def bothTrace : List Input := pairTrace ++ [ok (.message 2 (.join_room (some key1))) 5]

/-- A started server with one persisted room, of identifier 10 and userCount 0. -/
def lobbyState : State := boot [] [⟨10, "general", 0, 0, 0⟩] [] 11

/-- Two connections authenticate once each; alice joins the room under the spelling the server
sent. -/
def aliasTrace : List Input :=
  [ok (.connection 1) 0, ok (.connection 2) 0, ok (.message 1 (.authenticate "alice")) 1,
   ok (.message 2 (.authenticate "bob")) 2, ok (.message 1 (.join_room (some keyTen))) 3]

/-- Three connections authenticate once each; alice joins the room under the spelling the server
sent, bob and carol under the spelling with the upper-case letter. -/
def splitTrace : List Input :=
  [ok (.connection 1) 0, ok (.connection 2) 0, ok (.connection 3) 0,
   ok (.message 1 (.authenticate "alice")) 1, ok (.message 2 (.authenticate "bob")) 2,
   ok (.message 3 (.authenticate "carol")) 3, ok (.message 1 (.join_room (some keyTen))) 4,
   ok (.message 2 (.join_room (some keyTenUpper))) 5,
   ok (.message 3 (.join_room (some keyTenUpper))) 6]

/-! ## Interleaved calls of `handleAuthentication` -/

/-- A call of `handleAuthentication` suspended at one of its `await`s: at `User.findOne`, at
`User.create`, or at `user.save()` with the document that `findOne` returned. -/
inductive AuthTask where
  | findOne (ws : Conn) (username : String)
  | create (ws : Conn) (username : String)
  | save (ws : Conn) (username : String) (user : User)
deriving DecidableEq, Repr

/-- The connection whose message a suspended call handles. -/
def AuthTask.conn : AuthTask → Conn
  | .findOne ws _ => ws
  | .create ws _ => ws
  | .save ws _ _ => ws

/-- The server between two turns of the event loop: the state, the suspended calls, and the
`ws.send` calls made so far. -/
structure Loop where
  state : State
  pending : List AuthTask
  sent : List (Conn × Envelope)
deriving DecidableEq, Repr

/-- The function `handleAuthentication` from its start to its `return` or its first `await`. -/
def authStart (l : Loop) (ws : Conn) (username : String) : Loop :=
  if isUsernameTaken l.state username then
    { l with sent := l.sent ++ [(ws, .auth_error "Username is already taken")] }
  else { l with pending := l.pending ++ [.findOne ws username] }

/-- A suspended call of `handleAuthentication` from the `await` it is at to its next `await`
or to its end: the state, the sends, and the `await` it is suspended at next. -/
def authResume (s : State) (now : Nat) :
    AuthTask → State × List (Conn × Envelope) × Option AuthTask
  | .findOne ws username =>
    match User.findOne s.users username with
    | none => (s, [], some (.create ws username))
    | some user => (s, [], some (.save ws username user))
  | .create ws username =>
    let s1 := { s with users := s.users ++ [User.mk s.nextId username true now],
                       nextId := s.nextId + 1 }
    ({ s1 with clients := mapSet s1.clients ws ⟨s.nextId, username, none⟩ },
      [(ws, .authenticated s.nextId username)], none)
  | .save ws username user =>
    let s1 := { s with users := User.save s.users user.id true now }
    ({ s1 with clients := mapSet s1.clients ws ⟨user.id, username, none⟩ },
      [(ws, .authenticated user.id username)], none)

/-- A turn of the event loop: an authenticate message arrives on a connection, or the oldest
suspended call of a connection is resumed. -/
inductive Turn where
  | arrive (ws : Conn) (username : String)
  | resume (ws : Conn) (now : Nat)
deriving DecidableEq, Repr

/-- One turn of the event loop. -/
def Loop.turn (l : Loop) : Turn → Loop
  | .arrive ws username => authStart l ws username
  | .resume ws now =>
    match l.pending.find? (fun t => decide (t.conn = ws)) with
    | none => l
    | some task =>
      ⟨(authResume l.state now task).1,
        l.pending.erase task ++ (authResume l.state now task).2.2.toList,
        l.sent ++ (authResume l.state now task).2.1⟩

/-- The turns of a schedule, in order. -/
def Loop.run (l : Loop) : List Turn → Loop
  | [] => l
  | t :: rest => Loop.run (l.turn t) rest

/-- A started server that knows the user alice from an earlier session, with two open
connections. -/
def returningState : State :=
  run (boot [⟨0, "alice", false, 0⟩] [] [] 1) [ok (.connection 1) 0, ok (.connection 2) 0]

/-- Both authenticate messages arrive before either call is resumed. -/
def racingSchedule : List Turn :=
  [.arrive 1 "alice", .arrive 2 "alice", .resume 1 1, .resume 2 2, .resume 1 3, .resume 2 4]

/-- The call of the first connection runs to its end before the message of the second
arrives. -/
def serialSchedule : List Turn :=
  [.arrive 1 "alice", .resume 1 1, .resume 1 3, .arrive 2 "alice", .resume 2 2, .resume 2 4]

/-! ## JavaScript maps: lemmas -/

theorem mapGet_mem {κ β : Type} [DecidableEq κ] (m : List (κ × β)) (k : κ) (v : β)
    (h : mapGet m k = some v) : (k, v) ∈ m := by
  induction m with
  | nil => simp [mapGet] at h
  | cons p m ih =>
    obtain ⟨k0, v0⟩ := p
    by_cases hk : k0 = k
    · simp [mapGet, hk] at h
      simp [hk, h]
    · simp [mapGet, hk] at h
      exact List.mem_cons_of_mem _ (ih h)

theorem mapGet_none_iff {κ β : Type} [DecidableEq κ] (m : List (κ × β)) (k : κ) :
    mapGet m k = none ↔ k ∉ m.map Prod.fst := by
  induction m with
  | nil => simp [mapGet]
  | cons p m ih =>
    obtain ⟨k0, v0⟩ := p
    by_cases hk : k0 = k
    · simp [mapGet, hk]
    · simp only [mapGet, hk, if_false, ih, List.map_cons, List.mem_cons]
      constructor
      · intro h1 h2
        rcases h2 with h2 | h2
        · exact hk h2.symm
        · exact h1 h2
      · intro h1 h2
        exact h1 (Or.inr h2)

theorem mapHas_iff {κ β : Type} [DecidableEq κ] (m : List (κ × β)) (k : κ) :
    mapHas m k = true ↔ k ∈ m.map Prod.fst := by
  unfold mapHas
  cases h : mapGet m k with
  | none => simpa using (mapGet_none_iff m k).1 h
  | some v =>
    simp only [Option.isSome_some, true_iff]
    exact List.mem_map.2 ⟨(k, v), mapGet_mem m k v h, rfl⟩

theorem mapModify_keys {κ β : Type} [DecidableEq κ] (m : List (κ × β)) (k : κ) (f : β → β) :
    (mapModify m k f).map Prod.fst = m.map Prod.fst := by
  unfold mapModify
  rw [List.map_map]
  apply List.map_congr_left
  intro p _
  by_cases h : p.1 = k <;> simp [h]

theorem mapModify_cons {κ β : Type} [DecidableEq κ] (k0 : κ) (v0 : β) (m : List (κ × β))
    (k : κ) (f : β → β) :
    mapModify ((k0, v0) :: m) k f
      = (if k0 = k then (k0, f v0) else (k0, v0)) :: mapModify m k f := rfl

theorem mapGet_mapModify {κ β : Type} [DecidableEq κ] (m : List (κ × β)) (k k2 : κ)
    (f : β → β) :
    mapGet (mapModify m k f) k2 = if k = k2 then (mapGet m k2).map f else mapGet m k2 := by
  induction m with
  | nil => simp [mapGet, mapModify]
  | cons p m ih =>
    obtain ⟨k0, v0⟩ := p
    rw [mapModify_cons]
    by_cases h0 : k0 = k
    · subst h0
      by_cases h2 : k0 = k2
      · subst h2
        simp [mapGet]
      · simp [mapGet, h2, ih]
    · by_cases h2 : k0 = k2
      · subst h2
        have h0b : ¬ k = k0 := fun e => h0 e.symm
        simp [mapGet, h0, h0b]
      · simp [mapGet, h0, h2, ih]

theorem mapHas_mapModify {κ β : Type} [DecidableEq κ] (m : List (κ × β)) (k k2 : κ)
    (f : β → β) : mapHas (mapModify m k f) k2 = mapHas m k2 := by
  unfold mapHas
  rw [mapGet_mapModify]
  by_cases h : k = k2 <;> simp [h]

theorem mapGet_append {κ β : Type} [DecidableEq κ] (m m2 : List (κ × β)) (k : κ) :
    mapGet (m ++ m2) k = (mapGet m k).orElse (fun _ => mapGet m2 k) := by
  induction m with
  | nil => simp [mapGet]
  | cons p m ih =>
    obtain ⟨k0, v0⟩ := p
    by_cases hk : k0 = k <;> simp [mapGet, hk, ih]

theorem mapGet_mapDelete {κ β : Type} [DecidableEq κ] (m : List (κ × β)) (k : κ) :
    mapGet (mapDelete m k) k = none := by
  rw [mapGet_none_iff]
  unfold mapDelete
  intro h
  obtain ⟨p, hp, e⟩ := List.mem_map.1 h
  rw [List.mem_filter] at hp
  simp at hp
  exact hp.2 e

/-! ## Sets of names, identifiers -/

theorem mem_setDelete (l : List String) (x y : String) :
    y ∈ setDelete l x ↔ y ∈ l ∧ y ≠ x := by
  unfold setDelete
  simp [List.mem_filter]

theorem nodup_setDelete (l : List String) (x : String) (h : l.Nodup) :
    (setDelete l x).Nodup := h.sublist (List.filter_sublist _)

theorem nodup_setAdd (l : List String) (x : String) (h : l.Nodup) : (setAdd l x).Nodup := by
  unfold setAdd
  split
  · exact h
  · rename_i hx
    rw [List.nodup_append]
    refine ⟨h, by simp, ?_⟩
    intro a ha hb
    simp only [List.mem_singleton] at hb
    exact hx (hb ▸ ha)

theorem length_setDelete (l : List String) (n : String) (hnd : l.Nodup) (hn : n ∈ l) :
    (setDelete l n).length + 1 = l.length := by
  induction l with
  | nil => simp at hn
  | cons a t ih =>
    rw [List.nodup_cons] at hnd
    unfold setDelete at ih ⊢
    by_cases ha : a = n
    · subst ha
      have hfil : t.filter (fun y => decide (y ≠ a)) = t := by
        rw [List.filter_eq_self]
        intro y hy
        have : y ≠ a := fun e => hnd.1 (e ▸ hy)
        simpa using this
      rw [List.filter_cons_of_neg (by simp), hfil, List.length_cons]
    · have hn2 : n ∈ t := by
        rcases List.mem_cons.1 hn with h | h
        · exact absurd h.symm ha
        · exact h
      rw [List.filter_cons_of_pos (by simpa using ha), List.length_cons, List.length_cons,
        ih hnd.2 hn2]

theorem castObjectId_empty : castObjectId "" = none := by decide

theorem isTruthy_of_cast (key : RoomKey) (h : (castObjectId key).isSome = true) :
    isTruthy (some key) = true := by
  have hne : key ≠ "" := by
    intro e
    rw [e, castObjectId_empty] at h
    cases h
  simpa [isTruthy] using hne

theorem findById_found (rooms : List Room) (roomId : Option RoomKey) (room : Room)
    (h : Room.findById rooms roomId = some (some room)) :
    ∃ key, roomId = some key ∧ castObjectId key = some room.id ∧ room ∈ rooms := by
  unfold Room.findById at h
  cases roomId with
  | none => simp at h
  | some key =>
    refine ⟨key, rfl, ?_⟩
    simp only at h
    cases hc : castObjectId key with
    | none => simp [hc] at h
    | some id =>
      simp only [hc, Option.some.injEq] at h
      have := List.find?_some h
      simp only [decide_eq_true_eq] at this
      exact ⟨by rw [this], List.mem_of_find?_eq_some h⟩

theorem findById_key (rooms : List Room) (key : RoomKey) (id : ObjectId)
    (h : castObjectId key = some id) :
    Room.findById rooms (some key) = some (rooms.find? (fun room => decide (room.id = id))) := by
  simp [Room.findById, h]

theorem save_absent (rooms : List Room) (id : ObjectId) (n : Nat)
    (h : rooms.find? (fun room => decide (room.id = id)) = none) :
    Room.save rooms id n = rooms := by
  simp only [List.find?_eq_none, decide_eq_true_eq] at h
  unfold Room.save
  conv_rhs => rw [← List.map_id rooms]
  apply List.map_congr_left
  intro room hroom
  simp [h room hroom]

theorem find_map_id (rooms : List Room) (k : ObjectId) (g : Room → Room)
    (hg : ∀ room, (g room).id = room.id) :
    (rooms.map g).find? (fun room => decide (room.id = k))
      = (rooms.find? (fun room => decide (room.id = k))).map g := by
  induction rooms with
  | nil => rfl
  | cons a t ih =>
    rw [List.map_cons, List.find?_cons, List.find?_cons, hg a]
    by_cases hk : a.id = k
    · simp [hk]
    · simp only [hk, decide_False]
      exact ih

theorem findById_save (rooms : List Room) (q : Option RoomKey) (id : ObjectId) (n : Nat) :
    Room.findById (Room.save rooms id n) q
      = (Room.findById rooms q).map (fun found => found.map
          (fun room => if room.id = id then { room with userCount := n } else room)) := by
  cases q with
  | none => rfl
  | some key =>
    unfold Room.findById
    simp only
    cases castObjectId key with
    | none => rfl
    | some k =>
      simp only [Option.map_some']
      congr 1
      unfold Room.save
      apply find_map_id
      intro room
      by_cases h : room.id = id <;> simp [h]

/-! ## The registry invariant -/

theorem mapModify_room_names (c : List (Conn × Client)) (ws : Conn) (room : Option RoomKey) :
    (mapModify c ws (fun x => { x with currentRoom := room })).map (fun p => p.2.username)
      = c.map (fun p => p.2.username) := by
  unfold mapModify
  rw [List.map_map]
  apply List.map_congr_left
  intro p _
  by_cases h : p.1 = ws <;> simp [h]

theorem mem_mapModify {κ β : Type} [DecidableEq κ] (m : List (κ × β)) (k : κ) (f : β → β)
    (q : κ × β) (h : q ∈ mapModify m k f) :
    ∃ p ∈ m, q.1 = p.1 ∧ (q.2 = p.2 ∨ (p.1 = k ∧ q.2 = f p.2)) := by
  unfold mapModify at h
  obtain ⟨p, hp, rfl⟩ := List.mem_map.1 h
  refine ⟨p, hp, ?_⟩
  by_cases hk : p.1 = k <;> simp [hk]

theorem Registry.setRoom {c : List (Conn × Client)} {ru : List (RoomKey × List String)}
    (h : Registry c ru) (ws : Conn) (room : Option RoomKey)
    (hr : ∀ r, room = some r → mapHas ru r = true ∧ (castObjectId r).isSome = true) :
    Registry (mapModify c ws (fun x => { x with currentRoom := room })) ru := by
  refine ⟨?_, ?_, ?_, h.2.2.2⟩
  · rw [mapModify_keys]; exact h.1
  · rw [mapModify_room_names]; exact h.2.1
  · intro q hq r hqr
    obtain ⟨p, hp, _, h2 | ⟨_, h2⟩⟩ := mem_mapModify _ _ _ _ hq
    · rw [h2] at hqr
      exact h.2.2.1 p hp r hqr
    · rw [h2] at hqr
      exact hr r hqr

theorem Registry.modifySet {c : List (Conn × Client)} {ru : List (RoomKey × List String)}
    (h : Registry c ru) (r : RoomKey) (f : List String → List String)
    (hf : ∀ l, l.Nodup → (f l).Nodup) : Registry c (mapModify ru r f) := by
  refine ⟨h.1, h.2.1, ?_, ?_⟩
  · intro p hp k hk
    rw [mapHas_mapModify]
    exact h.2.2.1 p hp k hk
  · intro k names hk
    rw [mapGet_mapModify] at hk
    by_cases e : r = k
    · rw [if_pos e] at hk
      cases hg : mapGet ru k with
      | none => rw [hg] at hk; cases hk
      | some l =>
        rw [hg] at hk
        cases hk
        exact hf l (h.2.2.2 k l hg)
    · rw [if_neg e] at hk
      exact h.2.2.2 k names hk

theorem Registry.create {c : List (Conn × Client)} {ru : List (RoomKey × List String)}
    (h : Registry c ru) (r : RoomKey) :
    Registry c (if mapHas ru r then ru else ru ++ [(r, [])]) := by
  split
  · exact h
  · refine ⟨h.1, h.2.1, ?_, ?_⟩
    · intro p hp k hk
      have := h.2.2.1 p hp k hk
      refine ⟨?_, this.2⟩
      have h1 := this.1
      rw [mapHas_iff] at h1 ⊢
      simp [h1]
    · intro k names hk
      rw [mapGet_append] at hk
      cases hg : mapGet ru k with
      | some l =>
        rw [hg] at hk
        have e : l = names := by simpa using hk
        rw [← e]
        exact h.2.2.2 k l hg
      | none =>
        rw [hg] at hk
        simp only [Option.orElse_none, mapGet] at hk
        split at hk
        · cases hk
          exact List.nodup_nil
        · cases hk

theorem Registry.join {c : List (Conn × Client)} {ru : List (RoomKey × List String)}
    (h : Registry c ru) (ws : Conn) (r : RoomKey) (n : String)
    (hr : (castObjectId r).isSome = true) :
    Registry (mapModify c ws (fun x => { x with currentRoom := some r }))
      (mapModify (if mapHas ru r then ru else ru ++ [(r, [])]) r
        (fun names => setAdd names n)) := by
  have h1 := (h.create r).modifySet r (fun names => setAdd names n)
    (fun l hl => nodup_setAdd l n hl)
  apply Registry.setRoom h1
  intro r2 e
  cases e
  refine ⟨?_, hr⟩
  rw [mapHas_mapModify]
  split
  · assumption
  · rw [mapHas_iff]
    simp

theorem WF_leave (s : State) (r : RoomKey) (n : String) (h : WF s) :
    WF (roomUsersDelete s r n) :=
  Registry.modifySet h r (fun names => setDelete names n) (fun l hl => nodup_setDelete l n hl)

theorem WF_clear (s : State) (ws : Conn) (h : WF s) : WF (setCurrentRoom s ws none) :=
  Registry.setRoom h ws none (by simp)

theorem WF_join (s : State) (ws : Conn) (r : RoomKey) (n : String) (h : WF s)
    (hr : (castObjectId r).isSome = true) :
    WF (roomUsersAdd (setCurrentRoom s ws (some r)) r n) :=
  Registry.join h ws r n hr

theorem WF_handleLeaveRoom (s : State) (ws : Conn) (roomId : Option RoomKey)
    (budget : Option Nat) (h : WF s) : WF (handleLeaveRoom s ws roomId budget).state := by
  unfold handleLeaveRoom
  repeat' (first | split | (dsimp only; split))
  all_goals
    first
    | exact h
    | exact WF_clear s ws h
    | exact WF_leave s _ _ h
    | exact WF_clear _ ws (WF_leave s _ _ h)

theorem WF_handleJoinRoom (s : State) (ws : Conn) (roomId : Option RoomKey)
    (budget : Option Nat) (h : WF s) : WF (handleJoinRoom s ws roomId budget).state := by
  unfold handleJoinRoom
  split
  · exact h
  · rename_i client _
    have hleft : WF (if isTruthy client.currentRoom then
        handleLeaveRoom s ws client.currentRoom budget else ⟨s, [], budget, false⟩).state := by
      split
      · exact WF_handleLeaveRoom s ws _ budget h
      · exact h
    generalize (if isTruthy client.currentRoom then
        handleLeaveRoom s ws client.currentRoom budget else ⟨s, [], budget, false⟩) = left
      at hleft ⊢
    dsimp only
    split
    · exact hleft
    · split
      · exact hleft
      · split
        · exact hleft
        · rename_i r room hfind
          obtain ⟨key, hk, hcast, _⟩ := findById_found _ _ _ hfind
          cases hk
          have hr : (castObjectId r).isSome = true := by rw [hcast]; rfl
          split
          · exact WF_join _ ws _ _ hleft hr
          · exact WF_join _ ws _ _ hleft hr
        · exact hleft

theorem Registry.delete {c : List (Conn × Client)} {ru : List (RoomKey × List String)}
    (h : Registry c ru) (ws : Conn) : Registry (mapDelete c ws) ru := by
  have hs : (mapDelete c ws).Sublist c := List.filter_sublist _
  exact ⟨h.1.sublist (hs.map _), h.2.1.sublist (hs.map _),
    fun p hp r hr => h.2.2.1 p (hs.subset hp) r hr, h.2.2.2⟩

theorem WF_handleDisconnect (s : State) (ws : Conn) (now : Nat)
    (budget : Option Nat) (h : WF s) : WF (handleDisconnect s ws now budget).state := by
  unfold handleDisconnect
  split
  · exact h
  · rename_i client _
    have hleft : WF (if isTruthy client.currentRoom then
        handleLeaveRoom s ws client.currentRoom budget else ⟨s, [], budget, false⟩).state := by
      split
      · exact WF_handleLeaveRoom s ws _ budget h
      · exact h
    generalize (if isTruthy client.currentRoom then
        handleLeaveRoom s ws client.currentRoom budget else ⟨s, [], budget, false⟩) = left
      at hleft ⊢
    repeat' (first | split | (dsimp only; split))
    all_goals
      first
      | exact hleft
      | exact Registry.delete hleft ws

theorem replace_names_nodup (c : List (Conn × Client)) (ws : Conn) (v : Client)
    (hk : (c.map Prod.fst).Nodup) (hn : (c.map (fun p => p.2.username)).Nodup)
    (hv : v.username ∉ c.map (fun p => p.2.username)) :
    ((c.map (fun p => if p.1 = ws then (p.1, v) else p)).map (fun p => p.2.username)).Nodup := by
  induction c with
  | nil => simp
  | cons p m ih =>
    simp only [List.map_cons, List.nodup_cons, List.mem_cons, not_or] at hk hn hv
    have ihm := ih hk.2 hn.2 hv.2
    by_cases hp : p.1 = ws
    · have hm : m.map (fun p => if p.1 = ws then (p.1, v) else p) = m := by
        conv_rhs => rw [← List.map_id m]
        apply List.map_congr_left
        intro q hq
        have : q.1 ≠ ws := by
          intro e
          apply hk.1
          rw [hp, ← e]
          exact List.mem_map_of_mem _ hq
        simp [this]
      simp only [List.map_cons, hp, if_true, hm, List.nodup_cons]
      exact ⟨hv.2, hn.2⟩
    · simp only [List.map_cons, hp, if_false, List.nodup_cons]
      refine ⟨?_, ihm⟩
      intro hmem
      obtain ⟨q, hq, e⟩ := List.mem_map.1 hmem
      obtain ⟨q0, hq0, rfl⟩ := List.mem_map.1 hq
      by_cases hq1 : q0.1 = ws
      · simp only [hq1, if_true] at e
        exact hv.1 e
      · simp only [hq1, if_false] at e
        exact hn.1 (e ▸ List.mem_map_of_mem (fun p => p.2.username) hq0)

theorem Registry.set {c : List (Conn × Client)} {ru : List (RoomKey × List String)}
    (h : Registry c ru) (ws : Conn) (v : Client) (hroom : v.currentRoom = none)
    (hv : v.username ∉ c.map (fun p => p.2.username)) : Registry (mapSet c ws v) ru := by
  unfold mapSet
  split
  · refine ⟨?_, replace_names_nodup c ws v h.1 h.2.1 hv, ?_, h.2.2.2⟩
    · have := mapModify_keys c ws (fun _ => v)
      unfold mapModify at this
      rw [this]
      exact h.1
    · intro q hq r hr
      obtain ⟨p, hp, rfl⟩ := List.mem_map.1 hq
      by_cases hp1 : p.1 = ws
      · simp only [hp1, if_true] at hr
        rw [hroom] at hr
        cases hr
      · simp only [hp1, if_false] at hr
        exact h.2.2.1 p hp r hr
  · rename_i hno
    have hws : ws ∉ c.map Prod.fst := by
      rw [← mapHas_iff]
      exact hno
    refine ⟨?_, ?_, ?_, h.2.2.2⟩
    · rw [List.map_append, List.nodup_append]
      refine ⟨h.1, by simp, ?_⟩
      intro a ha hb
      simp only [List.map_cons, List.map_nil, List.mem_singleton] at hb
      exact hws (hb ▸ ha)
    · rw [List.map_append, List.nodup_append]
      refine ⟨h.2.1, by simp, ?_⟩
      intro a ha hb
      simp only [List.map_cons, List.map_nil, List.mem_singleton] at hb
      exact hv (hb ▸ ha)
    · intro q hq r hr
      rcases List.mem_append.1 hq with hq | hq
      · exact h.2.2.1 q hq r hr
      · simp only [List.mem_singleton] at hq
        rw [hq, hroom] at hr
        cases hr

theorem not_taken (s : State) (username : String) (h : ¬ isUsernameTaken s username = true) :
    username ∉ s.clients.map (fun p => p.2.username) := by
  intro hmem
  apply h
  obtain ⟨p, hp, e⟩ := List.mem_map.1 hmem
  unfold isUsernameTaken
  rw [List.any_eq_true]
  exact ⟨p, hp, by simpa using e⟩

theorem WF_handleAuthentication (s : State) (ws : Conn) (username : String) (now : Nat)
    (budget : Option Nat) (h : WF s) :
    WF (handleAuthentication s ws username now budget).state := by
  unfold handleAuthentication
  split
  · exact h
  · rename_i hfree
    have hv := not_taken s username hfree
    repeat' split
    all_goals
      first
      | exact h
      | exact Registry.set h ws _ rfl hv

theorem WF_dispatch (s : State) (ws : Conn) (m : Inbound) (now : Nat) (budget : Option Nat)
    (h : WF s) : WF (dispatch s ws m now budget).state := by
  cases m with
  | authenticate username => exact WF_handleAuthentication s ws username now budget h
  | join_room roomId => exact WF_handleJoinRoom s ws roomId budget h
  | leave_room roomId => exact WF_handleLeaveRoom s ws roomId budget h
  | send_message roomId text =>
    simp only [dispatch]
    unfold handleSendMessage
    repeat' split
    all_goals exact h
  | create_room roomName =>
    simp only [dispatch]
    unfold handleCreateRoom
    repeat' (first | split | (dsimp only; split))
    all_goals exact h
  | get_rooms =>
    simp only [dispatch]
    unfold handleGetRooms
    split <;> exact h
  | get_messages roomId limit =>
    simp only [dispatch]
    unfold handleGetMessages
    split <;> exact h
  | unknown => exact h
  | malformed => exact h

theorem WF_step (s : State) (i : Input) (h : WF s) : WF (step s i).state := by
  unfold step
  split
  · exact h
  · unfold onMessage
    dsimp only
    split
    · exact WF_dispatch _ _ _ _ _ h
    · exact WF_dispatch _ _ _ _ _ h
  · exact WF_handleDisconnect _ _ _ _ h

theorem WF_boot (users : List User) (rooms : List Room) (messages : List Message)
    (nextId : Nat) : WF (boot users rooms messages nextId) :=
  ⟨List.nodup_nil, List.nodup_nil, fun _ hp => absurd hp (List.not_mem_nil _),
    fun _ _ hk => by simp [boot, mapGet] at hk⟩

theorem Reachable.wf {s : State} (h : Reachable s) : WF s := by
  induction h with
  | boot users rooms messages nextId => exact WF_boot users rooms messages nextId
  | step s i _ ih => exact WF_step s i ih

theorem Reachable.run {s : State} (h : Reachable s) (trace : List Input) :
    Reachable (run s trace) := by
  induction trace generalizing s with
  | nil => exact h
  | cons i rest ih => exact ih (Reachable.step s i h)

/-! ## Usernames and membership -/

theorem isUsernameTaken_iff (s : State) (username : String) :
    isUsernameTaken s username = true ↔ ∃ p ∈ s.clients, p.2.username = username := by
  unfold isUsernameTaken
  rw [List.any_eq_true]
  constructor
  · rintro ⟨p, hp, e⟩
    exact ⟨p, hp, by simpa using e⟩
  · rintro ⟨p, hp, e⟩
    exact ⟨p, hp, by simpa using e⟩

/-- C1 (the code breaks it): after authenticate alice, create_room, join_room and a second
authenticate as bob on the same connection, `roomUsers` still records alice in the room while
no session is in that room, so the membership invariant fails in a reachable state. -/
theorem reauthenticate_keeps_member :
    (run (boot [] [] [] 0) reauthTrace).roomUsers = [(key1, ["alice"])] ∧
    (run (boot [] [] [] 0) reauthTrace).clients = [(1, ⟨2, "bob", none⟩)] ∧
    ¬ MembershipMatches (run (boot [] [] [] 0) reauthTrace) := by
  have h1 : (run (boot [] [] [] 0) reauthTrace).roomUsers = [(key1, ["alice"])] := by decide
  have h2 : (run (boot [] [] [] 0) reauthTrace).clients = [(1, ⟨2, "bob", none⟩)] := by decide
  refine ⟨h1, h2, ?_⟩
  intro h
  have hm : "alice" ∈ members (run (boot [] [] [] 0) reauthTrace) key1 := by
    unfold members
    rw [h1]
    decide
  obtain ⟨p, hp, hr, _⟩ := (h key1 "alice").1 hm
  rw [h2] at hp
  simp only [List.mem_singleton] at hp
  rw [hp] at hr
  cases hr

/-- C3: in every reachable state no two sessions hold the same username; an authenticate whose
username is held by a registered session (exact match) replies `auth_error` and changes
nothing; a changed `clients` means the name was free; and a free name is registered for the
connection when the store calls succeed. -/
theorem usernames_are_unique (s : State) (h : Reachable s) :
    (s.clients.map (fun p => p.2.username)).Nodup ∧
    ∀ (ws : Conn) (username : String) (now : Nat),
      ((∃ p ∈ s.clients, p.2.username = username) →
        ∀ budget, handleAuthentication s ws username now budget
          = ⟨s, [(ws, .auth_error "Username is already taken")], budget, false⟩) ∧
      (∀ budget, (handleAuthentication s ws username now budget).state.clients ≠ s.clients →
        ¬ ∃ p ∈ s.clients, p.2.username = username) ∧
      ((¬ ∃ p ∈ s.clients, p.2.username = username) →
        ∃ userId, (handleAuthentication s ws username now none).state.clients
            = mapSet s.clients ws ⟨userId, username, none⟩ ∧
          (handleAuthentication s ws username now none).sent
            = [(ws, .authenticated userId username)]) := by
  refine ⟨h.wf.2.1, fun ws username now => ?_⟩
  have htaken : (∃ p ∈ s.clients, p.2.username = username) →
      ∀ budget, handleAuthentication s ws username now budget
        = ⟨s, [(ws, .auth_error "Username is already taken")], budget, false⟩ := by
    intro hex budget
    unfold handleAuthentication
    rw [if_pos ((isUsernameTaken_iff s username).2 hex)]
  refine ⟨htaken, ?_, ?_⟩
  · intro budget hne hex
    apply hne
    rw [htaken hex budget]
  · intro hfree
    have hf : ¬ isUsernameTaken s username = true := fun e =>
      hfree ((isUsernameTaken_iff s username).1 e)
    unfold handleAuthentication
    rw [if_neg hf]
    simp only [storeCall]
    split
    · exact ⟨_, rfl, rfl⟩
    · exact ⟨_, rfl, rfl⟩

/-- With alice registered on connection 1: a second connection asking for `alice` gets
`auth_error`, and asking for `Alice` it is registered. -/
theorem usernames_are_unique_witness :
    Reachable (run (boot [] [] [] 0) aliceTrace) ∧
    ((run (boot [] [] [] 0) aliceTrace).clients.map (fun p => p.2.username)).Nodup ∧
    handleAuthentication (run (boot [] [] [] 0) aliceTrace) 2 "alice" 5 none
      = ⟨run (boot [] [] [] 0) aliceTrace, [(2, .auth_error "Username is already taken")],
          none, false⟩ ∧
    ∃ userId, (handleAuthentication (run (boot [] [] [] 0) aliceTrace) 2 "Alice" 5
        none).state.clients
          = mapSet (run (boot [] [] [] 0) aliceTrace).clients 2 ⟨userId, "Alice", none⟩ ∧
      (handleAuthentication (run (boot [] [] [] 0) aliceTrace) 2 "Alice" 5 none).sent
          = [(2, .authenticated userId "Alice")] :=
  ⟨(Reachable.boot [] [] [] 0).run aliceTrace,
    (usernames_are_unique _ ((Reachable.boot [] [] [] 0).run aliceTrace)).1,
    ((usernames_are_unique _ ((Reachable.boot [] [] [] 0).run aliceTrace)).2 2 "alice" 5).1
      ⟨(1, ⟨0, "alice", none⟩), by decide, rfl⟩ none,
    ((usernames_are_unique _ ((Reachable.boot [] [] [] 0).run aliceTrace)).2 2 "Alice" 5).2.2
      (by decide)⟩

/-! ## Strings -/

theorem jsLength_eq_zero (s : String) : jsLength s = 0 ↔ s = "" := by
  obtain ⟨l⟩ := s
  unfold jsLength
  cases l with
  | nil => simp
  | cons a t =>
    simp only [List.map_cons, List.sum_cons]
    constructor
    · intro h
      split at h <;> omega
    · intro h
      have hd := congrArg String.data h
      simp at hd

theorem jsTrim_empty : jsTrim "" = "" := by decide

theorem isBlank_iff (text : String) : isBlank text = true ↔ jsTrim text = "" := by
  unfold isBlank
  simp only [Bool.or_eq_true, beq_iff_eq, jsLength_eq_zero]
  constructor
  · rintro (h | h)
    · rw [h]; exact jsTrim_empty
    · exact h
  · exact Or.inr

theorem dropWhile_head_false {α : Type} (p : α → Bool) (l : List α) (a : α) (t : List α)
    (h : l.dropWhile p = a :: t) : p a = false := by
  induction l with
  | nil => simp at h
  | cons b m ih =>
    rw [List.dropWhile_cons] at h
    by_cases hb : p b = true
    · rw [if_pos hb] at h
      exact ih h
    · rw [if_neg hb] at h
      cases h
      simpa using hb

theorem trimChars_eq (l : List Char) :
    trimChars l = (l.dropWhile isJsWhiteSpace).rdropWhile isJsWhiteSpace := rfl

theorem trimChars_idempotent (l : List Char) : trimChars (trimChars l) = trimChars l := by
  have hpre : trimChars l <+: l.dropWhile isJsWhiteSpace := by
    rw [trimChars_eq]
    exact List.rdropWhile_prefix _ _
  have h1 : (trimChars l).dropWhile isJsWhiteSpace = trimChars l := by
    cases ht : trimChars l with
    | nil => rfl
    | cons a t =>
      rw [ht] at hpre
      obtain ⟨u, hu⟩ := hpre
      have ha : isJsWhiteSpace a = false :=
        dropWhile_head_false isJsWhiteSpace l a (t ++ u) (by rw [← hu]; rfl)
      rw [List.dropWhile_cons, if_neg (by simp [ha])]
  rw [trimChars_eq (trimChars l), h1, trimChars_eq l, List.rdropWhile_idempotent]

theorem jsTrim_idempotent (s : String) : jsTrim (jsTrim s) = jsTrim s := by
  unfold jsTrim
  rw [trimChars_idempotent]

/-! ## Delivery counts -/

theorem count_filter_map {κ β ε : Type} [DecidableEq κ] [DecidableEq ε] (m : List (κ × β))
    (hnd : (m.map Prod.fst).Nodup) (P : κ × β → Bool) (env e : ε) (c : κ) :
    ((m.filter P).map (fun p => (p.1, env))).count (c, e)
      = match mapGet m c with
        | some v => if e = env ∧ P (c, v) = true then 1 else 0
        | none => 0 := by
  induction m with
  | nil => simp [mapGet]
  | cons p m ih =>
    obtain ⟨k0, v0⟩ := p
    simp only [List.map_cons, List.nodup_cons] at hnd
    have ihm := ih hnd.2
    by_cases hk : k0 = c
    · subst hk
      have hnone : mapGet m k0 = none := (mapGet_none_iff m k0).2 hnd.1
      rw [hnone] at ihm
      simp only [mapGet, if_true]
      by_cases hP : P (k0, v0) = true
      · rw [List.filter_cons_of_pos hP, List.map_cons, List.count_cons, ihm]
        by_cases he : e = env
        · subst he
          simp [hP]
        · have : ¬ env = e := fun x => he x.symm
          simp [he, this]
      · rw [List.filter_cons_of_neg hP, ihm]
        simp [hP]
    · simp only [mapGet, hk, if_false]
      by_cases hP : P (k0, v0) = true
      · rw [List.filter_cons_of_pos hP, List.map_cons, List.count_cons, ihm]
        simp [hk]
      · rw [List.filter_cons_of_neg hP, ihm]

theorem broadcastToRoom_count (s : State) (hkeys : (s.clients.map Prod.fst).Nodup)
    (roomId : Option RoomKey) (env : Envelope) (excludeWs : Option Conn) (c : Conn)
    (e : Envelope) :
    (broadcastToRoom s roomId env excludeWs).count (c, e)
      = if e = env ∧ c ∈ s.openConns ∧
            (mapGet s.clients c).map (fun x => x.currentRoom) = some roomId ∧
            some c ≠ excludeWs then 1 else 0 := by
  unfold broadcastToRoom
  rw [count_filter_map s.clients hkeys _ env e c]
  cases hg : mapGet s.clients c with
  | none => simp
  | some v =>
    simp only [Bool.and_eq_true, decide_eq_true_eq, Option.map_some', Option.some.injEq]
    by_cases h1 : e = env <;> by_cases h2 : v.currentRoom = roomId <;>
      by_cases h3 : some c ≠ excludeWs <;> by_cases h4 : c ∈ s.openConns <;>
      simp [h1, h2, h3, h4]

theorem broadcast_count (s : State) (hkeys : (s.clients.map Prod.fst).Nodup) (env : Envelope)
    (c : Conn) (e : Envelope) :
    (broadcast s env).count (c, e)
      = if e = env ∧ c ∈ s.openConns ∧ (mapGet s.clients c).isSome = true then 1 else 0 := by
  unfold broadcast
  rw [count_filter_map s.clients hkeys _ env e c]
  cases hg : mapGet s.clients c with
  | none => simp
  | some v => simp

/-- C6: `broadcastToRoom` sends one copy of the envelope to each connection that is open, has a
session whose `currentRoom` is the room, and is not the excluded connection, and nothing else;
a send_message of a non-blank text by a session in the room persists the message and sends
`new_message` so, the sender included. -/
theorem broadcastToRoom_delivery (s : State) (hkeys : (s.clients.map Prod.fst).Nodup)
    (R : RoomKey) :
    (∀ (env : Envelope) (excludeWs : Option Conn) (c : Conn) (e : Envelope),
      (broadcastToRoom s (some R) env excludeWs).count (c, e)
        = if e = env ∧ c ∈ s.openConns ∧
              (mapGet s.clients c).map (fun x => x.currentRoom) = some (some R) ∧
              some c ≠ excludeWs then 1 else 0) ∧
    ∀ (ws : Conn) (client : Client) (text : String) (now : Nat),
      mapGet s.clients ws = some client → client.currentRoom = some R → jsTrim text ≠ "" →
      (onMessage s ws (.send_message (some R) text) now none).state.messages
        = s.messages ++ [⟨s.nextId, some R, client.userId, client.username, jsTrim text, now⟩] ∧
      (onMessage s ws (.send_message (some R) text) now none).sent
        = broadcastToRoom s (some R)
            (.new_message s.nextId client.username (jsTrim text) now) none ∧
      (ws ∈ s.openConns →
        (onMessage s ws (.send_message (some R) text) now none).sent.count
          (ws, .new_message s.nextId client.username (jsTrim text) now) = 1) := by
  have hcount : ∀ (env : Envelope) (excludeWs : Option Conn) (c : Conn) (e : Envelope),
      (broadcastToRoom s (some R) env excludeWs).count (c, e)
        = if e = env ∧ c ∈ s.openConns ∧
              (mapGet s.clients c).map (fun x => x.currentRoom) = some (some R) ∧
              some c ≠ excludeWs then 1 else 0 :=
    fun env excludeWs c e => broadcastToRoom_count s hkeys (some R) env excludeWs c e
  refine ⟨hcount, ?_⟩
  intro ws client text now hget hroom htext
  have hblank : ¬ isBlank text = true := fun h => htext ((isBlank_iff text).1 h)
  have hsent : (onMessage s ws (.send_message (some R) text) now none).sent
        = broadcastToRoom s (some R)
            (.new_message s.nextId client.username (jsTrim text) now) none := by
    simp only [onMessage, dispatch, handleSendMessage, hget, hroom, storeCall, hblank]
    simp [broadcastToRoom]
  refine ⟨?_, hsent, ?_⟩
  · simp only [onMessage, dispatch, handleSendMessage, hget, hroom, storeCall, hblank]
    simp
  · intro hopen
    rw [hsent, hcount]
    simp [hget, hroom, hopen]

/-! ## Rejections, broadcasts, rooms -/

/-- C5 as stated fails: alice is in the room of key `key1` and sends a text that is blank after
trimming, addressed to another room. The room check comes first: the reply is `Not in this
room`, not `Message cannot be empty`. -/
theorem blank_message_to_other_room :
    mapGet (run (boot [] [] [] 0) roomTrace).clients 1 = some ⟨0, "alice", some key1⟩ ∧
    jsTrim " \n" = "" ∧
    onMessage (run (boot [] [] [] 0) roomTrace) 1 (.send_message (some keyTen) " \n") 9 none
      = ⟨run (boot [] [] [] 0) roomTrace, [(1, .error "Not in this room")], none, false⟩ ∧
    (onMessage (run (boot [] [] [] 0) roomTrace) 1 (.send_message (some keyTen) " \n") 9
      none).sent ≠ [(1, .error "Message cannot be empty")] := by
  decide

/-- C5, amended: a send_message from a connection without a session, or whose session is not in
the addressed room, is answered `Not in this room`, whatever the text; from a session in the
addressed room with a text that is blank after trimming, `Message cannot be empty`; a blank
text is refused in either case. Each time the state is unchanged (no Message is persisted) and
the one `ws.send` is the error reply to the sender. -/
theorem send_message_rejected (s : State) (ws : Conn) (roomId : Option RoomKey)
    (text : String) (now : Nat) (budget : Option Nat) :
    ((mapGet s.clients ws = none ∨
        ∃ client, mapGet s.clients ws = some client ∧ client.currentRoom ≠ roomId) →
      onMessage s ws (.send_message roomId text) now budget
        = ⟨s, [(ws, .error "Not in this room")], budget, false⟩) ∧
    ((∃ client, mapGet s.clients ws = some client ∧ client.currentRoom = roomId) →
      jsTrim text = "" →
      onMessage s ws (.send_message roomId text) now budget
        = ⟨s, [(ws, .error "Message cannot be empty")], budget, false⟩) ∧
    (jsTrim text = "" →
      ∃ reason, onMessage s ws (.send_message roomId text) now budget
        = ⟨s, [(ws, .error reason)], budget, false⟩) := by
  have h1 : (mapGet s.clients ws = none ∨
        ∃ client, mapGet s.clients ws = some client ∧ client.currentRoom ≠ roomId) →
      onMessage s ws (.send_message roomId text) now budget
        = ⟨s, [(ws, .error "Not in this room")], budget, false⟩ := by
    rintro (h | ⟨client, h, hne⟩)
    · simp [onMessage, dispatch, handleSendMessage, h]
    · simp [onMessage, dispatch, handleSendMessage, h, hne]
  have h2 : (∃ client, mapGet s.clients ws = some client ∧ client.currentRoom = roomId) →
      jsTrim text = "" →
      onMessage s ws (.send_message roomId text) now budget
        = ⟨s, [(ws, .error "Message cannot be empty")], budget, false⟩ := by
    rintro ⟨client, h, he⟩ hb
    simp [onMessage, dispatch, handleSendMessage, h, he, (isBlank_iff text).2 hb]
  refine ⟨h1, h2, ?_⟩
  intro hb
  cases hg : mapGet s.clients ws with
  | none => exact ⟨_, h1 (Or.inl hg)⟩
  | some client =>
    by_cases he : client.currentRoom = roomId
    · exact ⟨_, h2 ⟨client, hg, he⟩ hb⟩
    · exact ⟨_, h1 (Or.inr ⟨client, hg, he⟩)⟩

/-- With alice registered and in no room: a connection without session, a blank text, and an
empty text to a room alice is not in. -/
theorem send_message_rejected_witness :
    onMessage (run (boot [] [] [] 0) aliceTrace) 2 (.send_message (some key1) "hi") 5 none
      = ⟨run (boot [] [] [] 0) aliceTrace, [(2, .error "Not in this room")], none, false⟩ ∧
    onMessage (run (boot [] [] [] 0) aliceTrace) 1 (.send_message none " \n") 5 none
      = ⟨run (boot [] [] [] 0) aliceTrace, [(1, .error "Message cannot be empty")], none,
          false⟩ ∧
    ∃ reason, onMessage (run (boot [] [] [] 0) aliceTrace) 1 (.send_message (some key1) "") 5 none
      = ⟨run (boot [] [] [] 0) aliceTrace, [(1, .error reason)], none, false⟩ :=
  ⟨(send_message_rejected _ 2 (some key1) "hi" 5 none).1 (Or.inl (by decide)),
   (send_message_rejected _ 1 none " \n" 5 none).2.1 ⟨⟨0, "alice", none⟩, by decide, rfl⟩
     (by decide),
   (send_message_rejected _ 1 (some key1) "" 5 none).2.2 (by decide)⟩

/-- With alice alone in room 1: one copy to alice, and her own `new_message`. -/
theorem broadcastToRoom_delivery_witness :
    ((run (boot [] [] [] 0) roomTrace).clients.map Prod.fst).Nodup ∧
    (broadcastToRoom (run (boot [] [] [] 0) roomTrace) (some key1) .room_list_updated none).count
      (1, .room_list_updated) = 1 ∧
    (onMessage (run (boot [] [] [] 0) roomTrace) 1 (.send_message (some key1) " hi ") 9
      none).sent.count (1, .new_message 2 "alice" "hi" 9) = 1 :=
  ⟨by decide,
   by
    rw [(broadcastToRoom_delivery (run (boot [] [] [] 0) roomTrace) (by decide) key1).1]
    decide,
   ((broadcastToRoom_delivery (run (boot [] [] [] 0) roomTrace) (by decide) key1).2 1
      ⟨0, "alice", some key1⟩ " hi " 9 (by decide) rfl (by decide)).2.2 (by decide)⟩

/-- C7 as stated fails: connection 2 is open and has not authenticated; `broadcast` sends it
nothing, and the create_room of connection 1 sends `room_list_updated` to connection 1
alone. -/
theorem broadcast_skips_unauthenticated :
    2 ∈ (run (boot [] [] [] 0) aliceTrace).openConns ∧
    broadcast (run (boot [] [] [] 0) aliceTrace) .room_list_updated
      = [(1, .room_list_updated)] ∧
    (onMessage (run (boot [] [] [] 0) aliceTrace) 1 (.create_room "general") 2 none).sent
      = [(1, .room_created 1 "general" 0), (1, .room_list_updated)] := by
  decide

theorem findOne_none_any (rooms : List Room) (name : String)
    (h : Room.findOne rooms name = none) :
    rooms.any (fun room => decide (room.name = name)) = false := by
  unfold Room.findOne at h
  rw [List.find?_eq_none] at h
  rw [List.any_eq_false]
  exact h

theorem handleCreateRoom_accepted (s : State) (ws : Conn) (client : Client)
    (roomName : String) (now : Nat) (hget : mapGet s.clients ws = some client)
    (hfree : Room.findOne s.rooms (jsTrim roomName) = none)
    (hmin : 2 ≤ jsLength (jsTrim roomName)) (hmax : jsLength (jsTrim roomName) ≤ 30) :
    handleCreateRoom s ws roomName now none
      = ⟨{ s with rooms := s.rooms ++ [⟨s.nextId, jsTrim roomName, client.userId, 0, now⟩],
                  nextId := s.nextId + 1 },
          (ws, .room_created s.nextId (jsTrim roomName) 0) :: broadcast s .room_list_updated,
          none, false⟩ := by
  have hne : jsTrim roomName ≠ "" := by
    intro e
    rw [(jsLength_eq_zero _).2 e] at hmin
    omega
  have hblank : ¬ isBlank roomName = true := fun h => hne ((isBlank_iff roomName).1 h)
  have hvalid : Room.nameValid s.rooms (jsTrim roomName) = true := by
    unfold Room.nameValid
    simp [hne, hmin, hmax, findOne_none_any s.rooms _ hfree]
  simp only [handleCreateRoom, hget, hblank, storeCall, hfree, jsTrim_idempotent, hvalid]
  simp [broadcast]

/-- C7, amended: `broadcast` sends one copy of the envelope to each open connection that has a
registered session and nothing to any other connection; the `room_list_updated` of a
create_room that succeeds goes to these connections. -/
theorem broadcast_delivery (s : State) (hkeys : (s.clients.map Prod.fst).Nodup) :
    (∀ (env : Envelope) (c : Conn) (e : Envelope),
      (broadcast s env).count (c, e)
        = if e = env ∧ c ∈ s.openConns ∧ (mapGet s.clients c).isSome = true then 1 else 0) ∧
    ∀ (ws : Conn) (client : Client) (roomName : String) (now : Nat),
      mapGet s.clients ws = some client → Room.findOne s.rooms (jsTrim roomName) = none →
      2 ≤ jsLength (jsTrim roomName) → jsLength (jsTrim roomName) ≤ 30 →
      ∀ c, (onMessage s ws (.create_room roomName) now none).sent.count
          (c, .room_list_updated)
        = if c ∈ s.openConns ∧ (mapGet s.clients c).isSome = true then 1 else 0 := by
  have hcount : ∀ (env : Envelope) (c : Conn) (e : Envelope),
      (broadcast s env).count (c, e)
        = if e = env ∧ c ∈ s.openConns ∧ (mapGet s.clients c).isSome = true then 1 else 0 :=
    fun env c e => broadcast_count s hkeys env c e
  refine ⟨hcount, ?_⟩
  intro ws client roomName now hget hfree hmin hmax c
  simp only [onMessage, dispatch, handleCreateRoom_accepted s ws client roomName now hget hfree
    hmin hmax]
  rw [if_neg (by simp), List.count_cons, hcount]
  simp

/-- With alice registered and connection 2 open without session: nothing for connection 2, one
`room_list_updated` for alice after her create_room. -/
theorem broadcast_delivery_witness :
    ((run (boot [] [] [] 0) aliceTrace).clients.map Prod.fst).Nodup ∧
    (broadcast (run (boot [] [] [] 0) aliceTrace) .room_list_updated).count
      (2, .room_list_updated) = 0 ∧
    (onMessage (run (boot [] [] [] 0) aliceTrace) 1 (.create_room " general ") 2 none).sent.count
      (1, .room_list_updated) = 1 :=
  ⟨by decide,
   by
    rw [(broadcast_delivery (run (boot [] [] [] 0) aliceTrace) (by decide)).1]
    decide,
   by
    rw [(broadcast_delivery (run (boot [] [] [] 0) aliceTrace) (by decide)).2 1
      ⟨0, "alice", none⟩ " general " 2 (by decide) (by decide) (by decide) (by decide)]
    decide⟩

/-- C10 as stated fails: alice is authenticated, the name `a` is not blank and no room has it,
yet the `minlength` validator of the schema rejects it: no room is persisted and the reply is
the generic error, not `room_created`. -/
theorem create_room_short_name_rejected :
    mapGet (run (boot [] [] [] 0) aliceTrace).clients 1 = some ⟨0, "alice", none⟩ ∧
    jsTrim "a" = "a" ∧
    Room.findOne (run (boot [] [] [] 0) aliceTrace).rooms (jsTrim "a") = none ∧
    onMessage (run (boot [] [] [] 0) aliceTrace) 1 (.create_room "a") 2 none
      = ⟨run (boot [] [] [] 0) aliceTrace,
          [(1, .error "An error occurred processing your request")], some 0, false⟩ := by
  decide

/-- C10, amended: for a connection with a session and a roomName whose trimmed form has 2 to 30
UTF-16 code units and is the name of no room, create_room (store calls succeeding) persists a
room with the trimmed name, the session's user as creator and userCount 0, and replies
`room_created` with that name and userCount 0 before the broadcast. Without a session the
reply is `Not authenticated`; with a session and a name blank after trimming, `Room name
cannot be empty`; with a session and a trimmed name that a room has, `Room already exists`;
nothing is persisted in these three cases. -/
theorem create_room_outcomes (s : State) (ws : Conn) (roomName : String) (now : Nat) :
    (∀ client, mapGet s.clients ws = some client →
      Room.findOne s.rooms (jsTrim roomName) = none →
      2 ≤ jsLength (jsTrim roomName) → jsLength (jsTrim roomName) ≤ 30 →
      onMessage s ws (.create_room roomName) now none
        = ⟨{ s with rooms := s.rooms ++ [⟨s.nextId, jsTrim roomName, client.userId, 0, now⟩],
                    nextId := s.nextId + 1 },
            (ws, .room_created s.nextId (jsTrim roomName) 0) ::
              broadcast s .room_list_updated, none, false⟩) ∧
    (mapGet s.clients ws = none →
      ∀ budget, onMessage s ws (.create_room roomName) now budget
        = ⟨s, [(ws, .error "Not authenticated")], budget, false⟩) ∧
    ((mapGet s.clients ws).isSome = true → jsTrim roomName = "" →
      ∀ budget, onMessage s ws (.create_room roomName) now budget
        = ⟨s, [(ws, .error "Room name cannot be empty")], budget, false⟩) ∧
    ((mapGet s.clients ws).isSome = true → jsTrim roomName ≠ "" →
      (∃ room ∈ s.rooms, room.name = jsTrim roomName) →
      onMessage s ws (.create_room roomName) now none
        = ⟨s, [(ws, .error "Room already exists")], none, false⟩) := by
  refine ⟨?_, ?_, ?_, ?_⟩
  · intro client hget hfree hmin hmax
    simp only [onMessage, dispatch, handleCreateRoom_accepted s ws client roomName now hget hfree
      hmin hmax]
    rw [if_neg (by simp)]
  · intro hget budget
    simp [onMessage, dispatch, handleCreateRoom, hget]
  · intro hget hblank budget
    obtain ⟨client, hc⟩ := Option.isSome_iff_exists.1 hget
    simp [onMessage, dispatch, handleCreateRoom, hc, (isBlank_iff roomName).2 hblank]
  · intro hget hne hex
    obtain ⟨client, hc⟩ := Option.isSome_iff_exists.1 hget
    have hblank : ¬ isBlank roomName = true := fun h => hne ((isBlank_iff roomName).1 h)
    have hfound : ∃ room, Room.findOne s.rooms (jsTrim roomName) = some room := by
      cases hf : Room.findOne s.rooms (jsTrim roomName) with
      | some room => exact ⟨room, rfl⟩
      | none =>
        exfalso
        unfold Room.findOne at hf
        rw [List.find?_eq_none] at hf
        obtain ⟨room, hr, hn⟩ := hex
        exact hf room hr (by simpa using hn)
    obtain ⟨room, hroom⟩ := hfound
    simp [onMessage, dispatch, handleCreateRoom, hc, hblank, storeCall, hroom]

/-- The four outcomes of create_room on concrete states. -/
theorem create_room_outcomes_witness :
    onMessage (run (boot [] [] [] 0) aliceTrace) 1 (.create_room " general ") 2 none
      = ⟨{ run (boot [] [] [] 0) aliceTrace with
            rooms := [⟨1, "general", 0, 0, 2⟩], nextId := 2 },
          [(1, .room_created 1 "general" 0), (1, .room_list_updated)], none, false⟩ ∧
    onMessage (run (boot [] [] [] 0) aliceTrace) 2 (.create_room "general") 2 none
      = ⟨run (boot [] [] [] 0) aliceTrace, [(2, .error "Not authenticated")], none, false⟩ ∧
    onMessage (run (boot [] [] [] 0) aliceTrace) 1 (.create_room "  ") 2 none
      = ⟨run (boot [] [] [] 0) aliceTrace, [(1, .error "Room name cannot be empty")], none,
          false⟩ ∧
    onMessage (run (boot [] [] [] 0) roomTrace) 1 (.create_room "general ") 2 none
      = ⟨run (boot [] [] [] 0) roomTrace, [(1, .error "Room already exists")], none, false⟩ :=
  ⟨(create_room_outcomes _ 1 " general " 2).1 ⟨0, "alice", none⟩ (by decide) (by decide)
      (by decide) (by decide),
   (create_room_outcomes _ 2 "general" 2).2.1 (by decide) none,
   (create_room_outcomes _ 1 "  " 2).2.2.1 (by decide) (by decide) none,
   (create_room_outcomes _ 1 "general " 2).2.2.2 (by decide) (by decide)
      ⟨⟨1, "general", 0, 1, 2⟩, by decide, by decide⟩⟩

/-! ## Message history -/

theorem query_sorted (l : List Message) (hnd : (l.map (fun m => m.timestamp)).Nodup) :
    (l.insertionSort (fun a b => a.timestamp ≥ b.timestamp)).Pairwise
      (fun a b => a.timestamp > b.timestamp) := by
  haveI : IsTotal Message (fun a b => a.timestamp ≥ b.timestamp) :=
    ⟨fun a b => Nat.le_total b.timestamp a.timestamp⟩
  haveI : IsTrans Message (fun a b => a.timestamp ≥ b.timestamp) :=
    ⟨fun a b c h1 h2 => Nat.le_trans h2 h1⟩
  have hs : (l.insertionSort (fun a b => a.timestamp ≥ b.timestamp)).Pairwise
      (fun a b => a.timestamp ≥ b.timestamp) :=
    List.sorted_insertionSort (fun a b : Message => a.timestamp ≥ b.timestamp) l
  have hp := List.perm_insertionSort (fun a b : Message => a.timestamp ≥ b.timestamp) l
  have hnd2 : ((l.insertionSort (fun a b => a.timestamp ≥ b.timestamp)).map
      (fun m => m.timestamp)).Nodup := (hp.map _).nodup_iff.2 hnd
  have hne : (l.insertionSort (fun a b => a.timestamp ≥ b.timestamp)).Pairwise
      (fun a b => a.timestamp ≠ b.timestamp) := by
    unfold List.Nodup at hnd2
    rw [List.pairwise_map] at hnd2
    exact hnd2
  exact (hs.and hne).imp (fun h => Nat.lt_of_le_of_ne h.1 (fun e => h.2 e.symm))

theorem query_ascending (l : List Message)
    (h : l.Pairwise (fun a b => a.timestamp < b.timestamp)) :
    l.insertionSort (fun a b => a.timestamp ≥ b.timestamp) = l.reverse := by
  haveI : IsAntisymm Message (fun a b => a.timestamp > b.timestamp) :=
    ⟨fun a b h1 h2 => absurd h1 (Nat.lt_asymm h2)⟩
  have hnd : (l.map (fun m => m.timestamp)).Nodup := by
    unfold List.Nodup
    rw [List.pairwise_map]
    exact h.imp (fun h => Nat.ne_of_lt h)
  have hp := List.perm_insertionSort (fun a b : Message => a.timestamp ≥ b.timestamp) l
  have hrev : l.reverse.Pairwise (fun a b => a.timestamp > b.timestamp) :=
    List.pairwise_reverse.2 h
  exact List.eq_of_perm_of_sorted (hp.trans l.reverse_perm.symm) (query_sorted l hnd) hrev

/-- C8: for a room whose persisted messages have pairwise distinct timestamps and a limit of at
least 1 (50 when the request gives none), get_messages replies `messages_history` with
min(limit, count) messages of the room, in strictly ascending timestamp order, every message
of the room left out being older than each one returned; when the persisted order of the
room's messages is strictly ascending and the limit is their number, the reply is exactly
that list. -/
theorem get_messages_history (s : State) (ws : Conn) (R : RoomKey) (limit : Option Nat)
    (now : Nat) (hlimit : 1 ≤ limit.getD 50)
    (hdistinct : ((s.messages.filter (fun m => decide (m.roomId = some R))).map
      (fun m => m.timestamp)).Nodup) :
    ∃ data, onMessage s ws (.get_messages (some R) limit) now none
        = ⟨s, [(ws, .messages_history data)], none, false⟩ ∧
      data.length
        = min (limit.getD 50) (s.messages.filter (fun m => decide (m.roomId = some R))).length ∧
      data.Pairwise (fun a b => a.timestamp < b.timestamp) ∧
      (∀ m ∈ data, m ∈ s.messages ∧ m.roomId = some R) ∧
      (∀ m ∈ s.messages, m.roomId = some R → m ∉ data →
        ∀ d ∈ data, m.timestamp < d.timestamp) ∧
      ((s.messages.filter (fun m => decide (m.roomId = some R))).Pairwise
          (fun a b => a.timestamp < b.timestamp) →
        limit.getD 50 = (s.messages.filter (fun m => decide (m.roomId = some R))).length →
        data = s.messages.filter (fun m => decide (m.roomId = some R))) := by
  generalize hroom : s.messages.filter (fun m => decide (m.roomId = some R)) = roomMsgs
    at hdistinct ⊢
  generalize hL : limit.getD 50 = L at hlimit ⊢
  have hL0 : L ≠ 0 := by omega
  have hsorted := query_sorted roomMsgs hdistinct
  have hp := List.perm_insertionSort (fun a b : Message => a.timestamp ≥ b.timestamp) roomMsgs
  generalize hsrt : roomMsgs.insertionSort (fun a b => a.timestamp ≥ b.timestamp) = sorted
    at hsorted hp
  have hq : Message.query s.messages (some R) L = sorted.take L := by
    unfold Message.query
    simp only [hroom, hsrt, if_neg hL0]
  refine ⟨(sorted.take L).reverse, ?_, ?_, ?_, ?_, ?_, ?_⟩
  · simp only [onMessage, dispatch, handleGetMessages, storeCall, hL, hq]
    simp
  · rw [List.length_reverse, List.length_take, hp.length_eq]
  · rw [List.pairwise_reverse]
    exact hsorted.sublist (List.take_sublist L sorted)
  · intro m hm
    have hm2 : m ∈ roomMsgs :=
      hp.subset ((List.take_sublist L sorted).subset (List.mem_reverse.1 hm))
    rw [← hroom, List.mem_filter] at hm2
    exact ⟨hm2.1, by simpa using hm2.2⟩
  · intro m hm hr hnot d hd
    have hm2 : m ∈ sorted := by
      apply hp.symm.subset
      rw [← hroom, List.mem_filter]
      exact ⟨hm, by simpa using hr⟩
    rw [List.mem_reverse] at hnot hd
    rw [← List.take_append_drop L sorted] at hm2 hsorted
    rcases List.mem_append.1 hm2 with h1 | h1
    · exact absurd h1 hnot
    · exact (List.pairwise_append.1 hsorted).2.2 d hd m h1
  · intro hasc hlen
    have hall : sorted = roomMsgs.reverse := by
      rw [← hsrt]
      exact query_ascending roomMsgs hasc
    rw [hall, hlen, ← List.length_reverse, List.take_length, List.reverse_reverse]

/-- Three messages of room 1 persisted in ascending order, one of another room between them:
limit 3 returns the three in persisted order. -/
theorem get_messages_history_witness :
    ∃ data, onMessage historyState 1 (.get_messages (some key1) (some 3)) 0 none
        = ⟨historyState, [(1, .messages_history data)], none, false⟩ ∧
      data = [⟨10, some key1, 0, "alice", "one", 5⟩, ⟨12, some key1, 0, "alice", "two", 7⟩,
        ⟨13, some key1, 0, "alice", "three", 9⟩] := by
  obtain ⟨data, h1, _, _, _, _, h6⟩ :=
    get_messages_history historyState 1 key1 (some 3) 0 (by decide) (by decide)
  exact ⟨data, h1, h6 (by decide) (by decide)⟩

/-! ## Handlers whose store calls succeed -/

/-- A leave of the session's room whose store calls succeed: `id` is the identifier that the
room key denotes. -/
theorem handleLeaveRoom_eq (s : State) (ws : Conn) (client : Client) (r : RoomKey)
    (id : ObjectId) (names : List String) (hget : mapGet s.clients ws = some client)
    (hroom : client.currentRoom = some r) (hnames : mapGet s.roomUsers r = some names)
    (hcast : castObjectId r = some id) :
    handleLeaveRoom s ws (some r) none
      = ⟨{ s with
            clients := mapModify s.clients ws (fun c => { c with currentRoom := none }),
            roomUsers := mapModify s.roomUsers r (fun l => setDelete l client.username),
            rooms := Room.save s.rooms id (setDelete names client.username).length },
          broadcastToRoom s (some r)
            (.user_left client.username (setDelete names client.username)) none,
          none, false⟩ := by
  unfold handleLeaveRoom
  simp only [hget, hroom, hnames, storeCall, ne_eq, not_true_eq_false, if_false]
  simp only [roomUsersDelete, findById_key _ r id hcast]
  cases hf : s.rooms.find? (fun room => decide (room.id = id)) with
  | none =>
    simp only [setCurrentRoom, save_absent s.rooms id _ hf]
    rfl
  | some room =>
    have hid : room.id = id := by simpa using List.find?_some hf
    simp only [setCurrentRoom, hid]
    rfl

theorem members_delete (s : State) (r q : RoomKey) (n : String) :
    (mapGet (mapModify s.roomUsers r (fun l => setDelete l n)) q).getD []
      = if r = q then setDelete (members s q) n else members s q := by
  rw [mapGet_mapModify]
  unfold members
  by_cases h : r = q
  · simp only [h, if_true]
    cases mapGet s.roomUsers q <;> rfl
  · simp only [h, if_false]

theorem tracked_names (s : State) (hwf : WF s) (ws : Conn) (client : Client) (r : RoomKey)
    (hget : mapGet s.clients ws = some client) (hroom : client.currentRoom = some r) :
    mapGet s.roomUsers r = some (members s r) := by
  have hhas := (hwf.2.2.1 (ws, client) (mapGet_mem s.clients ws client hget) r hroom).1
  unfold mapHas at hhas
  unfold members
  cases hg : mapGet s.roomUsers r with
  | none => rw [hg] at hhas; cases hhas
  | some l => rfl

theorem castable_room (s : State) (hwf : WF s) (ws : Conn) (client : Client) (r : RoomKey)
    (hget : mapGet s.clients ws = some client) (hroom : client.currentRoom = some r) :
    ∃ id, castObjectId r = some id :=
  Option.isSome_iff_exists.1
    (hwf.2.2.1 (ws, client) (mapGet_mem s.clients ws client hget) r hroom).2

theorem members_nodup (s : State) (hwf : WF s) (r : RoomKey) : (members s r).Nodup := by
  unfold members
  cases hg : mapGet s.roomUsers r with
  | none => exact List.nodup_nil
  | some l => exact hwf.2.2.2 r l hg

/-- The leave that `handleJoinRoom` and `handleDisconnect` run first, for a session that is in
room `r`, when no store call fails. -/
theorem leave_current (s : State) (hwf : WF s) (ws : Conn) (client : Client) (r : RoomKey)
    (hget : mapGet s.clients ws = some client) (hroom : client.currentRoom = some r) :
    ∃ id, castObjectId r = some id ∧
      (if isTruthy client.currentRoom then handleLeaveRoom s ws client.currentRoom none
        else ⟨s, [], none, false⟩)
      = ⟨{ s with
            clients := mapModify s.clients ws (fun c => { c with currentRoom := none }),
            roomUsers := mapModify s.roomUsers r (fun l => setDelete l client.username),
            rooms := Room.save s.rooms id (setDelete (members s r) client.username).length },
          broadcastToRoom s (some r)
            (.user_left client.username (setDelete (members s r) client.username)) none,
          none, false⟩ := by
  obtain ⟨id, hcast⟩ := castable_room s hwf ws client r hget hroom
  refine ⟨id, hcast, ?_⟩
  have ht : isTruthy client.currentRoom = true := by
    rw [hroom]
    exact isTruthy_of_cast r (by rw [hcast]; rfl)
  rw [if_pos ht, hroom]
  exact handleLeaveRoom_eq s ws client r id (members s r) hget hroom
    (tracked_names s hwf ws client r hget hroom) hcast

/-! ## Disconnect -/

theorem handleDisconnect_absent (s : State) (ws : Conn) (now : Nat) (budget : Option Nat)
    (h : mapGet s.clients ws = none) :
    handleDisconnect s ws now budget = ⟨s, [], budget, false⟩ := by
  unfold handleDisconnect
  rw [h]

/-- The state after a disconnect whose store calls succeed, when the session is in room `r`. -/
theorem handleDisconnect_eq (s : State) (hwf : WF s) (ws : Conn) (client : Client)
    (r : RoomKey) (now : Nat) (hget : mapGet s.clients ws = some client)
    (hroom : client.currentRoom = some r) :
    ∃ users id, handleDisconnect s ws now none
      = ⟨{ s with
            clients := mapDelete
              (mapModify s.clients ws (fun c => { c with currentRoom := none })) ws,
            roomUsers := mapModify s.roomUsers r (fun l => setDelete l client.username),
            rooms := Room.save s.rooms id (setDelete (members s r) client.username).length,
            users := users },
          broadcastToRoom s (some r)
            (.user_left client.username (setDelete (members s r) client.username)) none,
          none, false⟩ := by
  obtain ⟨id, _, hleft⟩ := leave_current s hwf ws client r hget hroom
  unfold handleDisconnect
  simp only [hget]
  rw [hleft]
  simp only [storeCall, Bool.false_eq_true, if_false]
  split
  · exact ⟨_, id, rfl⟩
  · exact ⟨_, id, rfl⟩

/-- C4: in a reachable state, the close of a connection whose session is in room `r` under the
name `n` (store calls succeeding) sends one `user_left` naming `n`, with the members of `r`
other than `n` as onlineUsers, to each other open connection whose session is in `r`, and
nothing else; afterwards `n` is not a member of `r` and the connection has no session; a
second run of the disconnect handling changes no state and sends nothing. -/
theorem disconnect_in_room (s : State) (h : Reachable s) (ws : Conn) (client : Client)
    (r : RoomKey) (now : Nat) (hget : mapGet s.clients ws = some client)
    (hroom : client.currentRoom = some r) :
    (∀ (c : Conn) (e : Envelope),
      (step s (ok (.close ws) now)).sent.count (c, e)
        = if e = .user_left client.username (setDelete (members s r) client.username) ∧
              c ≠ ws ∧ c ∈ s.openConns ∧
              (mapGet s.clients c).map (fun x => x.currentRoom) = some (some r)
          then 1 else 0) ∧
    members (step s (ok (.close ws) now)).state r
      = setDelete (members s r) client.username ∧
    client.username ∉ members (step s (ok (.close ws) now)).state r ∧
    mapGet (step s (ok (.close ws) now)).state.clients ws = none ∧
    ∀ now2, step (step s (ok (.close ws) now)).state (ok (.close ws) now2)
      = ⟨(step s (ok (.close ws) now)).state, [], none, false⟩ := by
  have hwf := h.wf
  obtain ⟨users, id, heq⟩ := handleDisconnect_eq
    { s with openConns := s.openConns.filter (fun c => decide (c ≠ ws)) } hwf ws client r now
    hget hroom
  have hstep : step s (ok (.close ws) now)
      = ⟨⟨mapDelete (mapModify s.clients ws (fun c => { c with currentRoom := none })) ws,
          mapModify s.roomUsers r (fun l => setDelete l client.username),
          s.openConns.filter (fun c => decide (c ≠ ws)), users,
          Room.save s.rooms id (setDelete (members s r) client.username).length, s.messages,
          s.nextId⟩,
        broadcastToRoom ⟨s.clients, s.roomUsers, s.openConns.filter (fun c => decide (c ≠ ws)),
          s.users, s.rooms, s.messages, s.nextId⟩ (some r)
          (.user_left client.username (setDelete (members s r) client.username)) none,
        none, false⟩ := heq
  rw [hstep]
  have hmem : members (⟨mapDelete (mapModify s.clients ws
          (fun c => { c with currentRoom := none })) ws,
        mapModify s.roomUsers r (fun l => setDelete l client.username),
        s.openConns.filter (fun c => decide (c ≠ ws)), users,
        Room.save s.rooms id (setDelete (members s r) client.username).length, s.messages,
        s.nextId⟩ : State) r
      = setDelete (members s r) client.username := by
    have := members_delete s r r client.username
    rw [if_pos rfl] at this
    exact this
  refine ⟨?_, hmem, ?_, mapGet_mapDelete _ ws, ?_⟩
  · intro c e
    show (broadcastToRoom ⟨s.clients, s.roomUsers,
      s.openConns.filter (fun c => decide (c ≠ ws)), s.users, s.rooms, s.messages, s.nextId⟩
      (some r) (.user_left client.username (setDelete (members s r) client.username))
      none).count (c, e) = _
    rw [broadcastToRoom_count (⟨s.clients, s.roomUsers,
      s.openConns.filter (fun c => decide (c ≠ ws)), s.users, s.rooms, s.messages,
      s.nextId⟩ : State) hwf.1]
    simp only [List.mem_filter, decide_eq_true_eq, ne_eq]
    by_cases h1 : e = .user_left client.username (setDelete (members s r) client.username) <;>
      by_cases h2 : c = ws <;> by_cases h3 : c ∈ s.openConns <;>
      by_cases h4 : (mapGet s.clients c).map (fun x => x.currentRoom) = some (some r) <;>
      simp [h1, h2, h3, h4]
  · show client.username ∉ members _ r
    rw [hmem, mem_setDelete]
    exact fun hn => hn.2 rfl
  · intro now2
    show handleDisconnect _ ws now2 none = _
    rw [handleDisconnect_absent _ ws now2 none (mapGet_mapDelete _ ws)]
    simp only [List.filter_filter, Bool.and_self]

/-- Alice and bob are in room 1 and alice disconnects: bob gets one `user_left` with
onlineUsers `[bob]`, and connection 1 has no session. -/
theorem disconnect_in_room_witness :
    Reachable (run (boot [] [] [] 0) bothTrace) ∧
    mapGet (run (boot [] [] [] 0) bothTrace).clients 1 = some ⟨0, "alice", some key1⟩ ∧
    (step (run (boot [] [] [] 0) bothTrace) (ok (.close 1) 9)).sent.count
      (2, .user_left "alice" ["bob"]) = 1 ∧
    mapGet (step (run (boot [] [] [] 0) bothTrace) (ok (.close 1) 9)).state.clients 1 = none :=
  ⟨(Reachable.boot [] [] [] 0).run bothTrace, by decide,
   by
    rw [(disconnect_in_room _ ((Reachable.boot [] [] [] 0).run bothTrace) 1
      ⟨0, "alice", some key1⟩ key1 9 (by decide) rfl).1]
    decide,
   (disconnect_in_room _ ((Reachable.boot [] [] [] 0).run bothTrace) 1
      ⟨0, "alice", some key1⟩ key1 9 (by decide) rfl).2.2.2.1⟩

/-! ## Store failures -/

theorem handleLeaveRoom_threw (s : State) (ws : Conn) (roomId : Option RoomKey)
    (budget : Option Nat) (h : (handleLeaveRoom s ws roomId budget).threw = true) :
    (handleLeaveRoom s ws roomId budget).sent = [] := by
  revert h
  unfold handleLeaveRoom
  repeat' (first | split | (dsimp only; split))
  all_goals simp [throwIn]

theorem handleLeaveRoom_sent (s : State) (ws : Conn) (client : Client)
    (roomId : Option RoomKey) (budget : Option Nat) (hget : mapGet s.clients ws = some client)
    (p : Conn × Envelope) (hp : p ∈ (handleLeaveRoom s ws roomId budget).sent) :
    ∃ l, p.2 = .user_left client.username l := by
  revert hp
  unfold handleLeaveRoom
  rw [hget]
  dsimp only
  repeat' split
  all_goals simp only [throwIn, List.not_mem_nil, false_implies, broadcastToRoom, List.mem_map]
  all_goals
    rintro ⟨q, _, rfl⟩
    exact ⟨_, rfl⟩

theorem handleSendMessage_threw (s : State) (ws : Conn) (roomId : Option RoomKey)
    (text : String) (now : Nat) (budget : Option Nat)
    (h : (handleSendMessage s ws roomId text now budget).threw = true) :
    (handleSendMessage s ws roomId text now budget).sent = [] := by
  revert h
  unfold handleSendMessage
  repeat' split
  all_goals simp [throwIn]

theorem handleCreateRoom_threw (s : State) (ws : Conn) (roomName : String) (now : Nat)
    (budget : Option Nat) (h : (handleCreateRoom s ws roomName now budget).threw = true) :
    (handleCreateRoom s ws roomName now budget).sent = [] := by
  revert h
  unfold handleCreateRoom
  repeat' (first | split | (dsimp only; split))
  all_goals simp [throwIn]

theorem handleJoinRoom_threw (s : State) (ws : Conn) (roomId : Option RoomKey)
    (budget : Option Nat) (h : (handleJoinRoom s ws roomId budget).threw = true) :
    ∃ client, mapGet s.clients ws = some client ∧
      (handleJoinRoom s ws roomId budget).sent
        = (if isTruthy client.currentRoom then handleLeaveRoom s ws client.currentRoom budget
            else ⟨s, [], budget, false⟩).sent := by
  cases hget : mapGet s.clients ws with
  | none =>
    unfold handleJoinRoom at h
    simp [hget] at h
  | some client =>
    refine ⟨client, rfl, ?_⟩
    revert h
    unfold handleJoinRoom
    simp only [hget]
    generalize (if isTruthy client.currentRoom then
        handleLeaveRoom s ws client.currentRoom budget else ⟨s, [], budget, false⟩) = left
    repeat' split
    all_goals simp [throwIn]

theorem onMessage_threw (s : State) (ws : Conn) (m : Inbound) (now : Nat)
    (budget : Option Nat) (h : (dispatch s ws m now budget).threw = true) :
    (onMessage s ws m now budget).sent
      = (dispatch s ws m now budget).sent
        ++ [(ws, .error "An error occurred processing your request")] := by
  unfold onMessage
  simp [h]

/-- C11 as stated fails: alice and bob are in the room of key `key1`; alice sends join_room and
the third store call of the event (the `Room.findById` of the join, after the two of the
leave) fails. The handler throws, yet `user_left` has been sent to both members before the
generic error. -/
theorem join_failure_after_leave :
    (dispatch (run (boot [] [] [] 0) bothTrace) 1 (.join_room (some key1)) 9 (some 2)).threw
      = true ∧
    (step (run (boot [] [] [] 0) bothTrace) ⟨.message 1 (.join_room (some key1)), 9, some 2⟩).sent
      = [(1, .user_left "alice" ["bob"]), (2, .user_left "alice" ["bob"]),
         (1, .error "An error occurred processing your request")] := by
  decide

/-- C11, amended: when a store call fails while leave_room, send_message or create_room is
handled, the handler is aborted and the one send of the event is the generic error reply to
the originating connection. When one fails while join_room is handled, the sends are those of
the leave of the session's current room followed by the generic error reply: none when the
session is in no room or when the leave itself failed, otherwise the `user_left` envelopes of
the completed leave; no `joined_room` and no `user_joined` is sent. -/
theorem store_failure_outcomes (s : State) (ws : Conn) (now : Nat) (budget : Option Nat) :
    (∀ roomId, (dispatch s ws (.leave_room roomId) now budget).threw = true →
      (onMessage s ws (.leave_room roomId) now budget).sent
        = [(ws, .error "An error occurred processing your request")]) ∧
    (∀ roomId text, (dispatch s ws (.send_message roomId text) now budget).threw = true →
      (onMessage s ws (.send_message roomId text) now budget).sent
        = [(ws, .error "An error occurred processing your request")]) ∧
    (∀ roomName, (dispatch s ws (.create_room roomName) now budget).threw = true →
      (onMessage s ws (.create_room roomName) now budget).sent
        = [(ws, .error "An error occurred processing your request")]) ∧
    (∀ roomId, (dispatch s ws (.join_room roomId) now budget).threw = true →
      ∃ client, mapGet s.clients ws = some client ∧
        (onMessage s ws (.join_room roomId) now budget).sent
          = (if isTruthy client.currentRoom then handleLeaveRoom s ws client.currentRoom budget
              else ⟨s, [], budget, false⟩).sent
            ++ [(ws, .error "An error occurred processing your request")] ∧
        (∀ p ∈ (if isTruthy client.currentRoom then
              handleLeaveRoom s ws client.currentRoom budget
              else ⟨s, [], budget, false⟩).sent, ∃ l, p.2 = .user_left client.username l) ∧
        (client.currentRoom = none →
          (onMessage s ws (.join_room roomId) now budget).sent
            = [(ws, .error "An error occurred processing your request")]) ∧
        ((handleLeaveRoom s ws client.currentRoom budget).threw = true →
          (onMessage s ws (.join_room roomId) now budget).sent
            = [(ws, .error "An error occurred processing your request")])) := by
  refine ⟨?_, ?_, ?_, ?_⟩
  · intro roomId h
    rw [onMessage_threw s ws _ now budget h]
    show (handleLeaveRoom s ws roomId budget).sent ++ _ = _
    rw [handleLeaveRoom_threw s ws roomId budget h]
    rfl
  · intro roomId text h
    rw [onMessage_threw s ws _ now budget h]
    show (handleSendMessage s ws roomId text now budget).sent ++ _ = _
    rw [handleSendMessage_threw s ws roomId text now budget h]
    rfl
  · intro roomName h
    rw [onMessage_threw s ws _ now budget h]
    show (handleCreateRoom s ws roomName now budget).sent ++ _ = _
    rw [handleCreateRoom_threw s ws roomName now budget h]
    rfl
  · intro roomId h
    obtain ⟨client, hget, hsent⟩ := handleJoinRoom_threw s ws roomId budget h
    have hall : (onMessage s ws (.join_room roomId) now budget).sent
          = (if isTruthy client.currentRoom then handleLeaveRoom s ws client.currentRoom budget
              else ⟨s, [], budget, false⟩).sent
            ++ [(ws, .error "An error occurred processing your request")] := by
      rw [onMessage_threw s ws _ now budget h]
      show (handleJoinRoom s ws roomId budget).sent ++ _ = _
      rw [hsent]
    refine ⟨client, hget, hall, ?_, ?_, ?_⟩
    · intro p hp
      split at hp
      · exact handleLeaveRoom_sent s ws client _ budget hget p hp
      · simp at hp
    · intro hnone
      rw [hall, hnone]
      rfl
    · intro hthrew
      rw [hall]
      split
      · rw [handleLeaveRoom_threw s ws _ budget hthrew]
        rfl
      · rfl

/-- With alice and bob in the room of key `key1`: a failing leave_room, send_message and
create_room each give the generic error alone; the failing join_room of the counterexample
gives the sends of the leave and then the generic error. -/
theorem store_failure_outcomes_witness :
    (onMessage (run (boot [] [] [] 0) bothTrace) 1 (.leave_room (some key1)) 9 (some 0)).sent
      = [(1, .error "An error occurred processing your request")] ∧
    (onMessage (run (boot [] [] [] 0) bothTrace) 1 (.send_message (some key1) "hi") 9
      (some 0)).sent = [(1, .error "An error occurred processing your request")] ∧
    (onMessage (run (boot [] [] [] 0) bothTrace) 1 (.create_room "lounge") 9 (some 1)).sent
      = [(1, .error "An error occurred processing your request")] ∧
    ∃ client, mapGet (run (boot [] [] [] 0) bothTrace).clients 1 = some client ∧
      (onMessage (run (boot [] [] [] 0) bothTrace) 1 (.join_room (some key1)) 9 (some 2)).sent
        = (if isTruthy client.currentRoom then
            handleLeaveRoom (run (boot [] [] [] 0) bothTrace) 1 client.currentRoom (some 2)
            else ⟨run (boot [] [] [] 0) bothTrace, [], some 2, false⟩).sent
          ++ [(1, .error "An error occurred processing your request")] := by
  refine ⟨(store_failure_outcomes _ 1 9 (some 0)).1 (some key1) (by decide),
    (store_failure_outcomes _ 1 9 (some 0)).2.1 (some key1) "hi" (by decide),
    (store_failure_outcomes _ 1 9 (some 1)).2.2.1 "lounge" (by decide), ?_⟩
  obtain ⟨client, h1, h2, _⟩ :=
    (store_failure_outcomes (run (boot [] [] [] 0) bothTrace) 1 9 (some 2)).2.2.2 (some key1)
      (by decide)
  exact ⟨client, h1, h2⟩

/-! ## Two spellings of one room identifier -/

/-- C2 (the code breaks it): the server starts with the room of identifier 10 at userCount 0
and no session; alice, bob and carol authenticate once each; alice joins the room under the key
`keyTen`, bob and carol under `keyTenUpper`. `Room.findById` resolves both keys to the one
room, while `roomUsers` keeps one set per key: the persisted userCount ends at 2, the size of
the set of the key joined last, with three sessions in the room, one of them under the key the
server sent. -/
theorem userCount_splits_on_spelling :
    lobbyState.clients = [] ∧
    lobbyState.rooms = [⟨10, "general", 0, 0, 0⟩] ∧
    Room.findById lobbyState.rooms (some keyTen) = some (some ⟨10, "general", 0, 0, 0⟩) ∧
    Room.findById lobbyState.rooms (some keyTenUpper) = some (some ⟨10, "general", 0, 0, 0⟩) ∧
    (run lobbyState splitTrace).clients
      = [(1, ⟨11, "alice", some keyTen⟩), (2, ⟨12, "bob", some keyTenUpper⟩),
         (3, ⟨13, "carol", some keyTenUpper⟩)] ∧
    (run lobbyState splitTrace).roomUsers
      = [(keyTen, ["alice"]), (keyTenUpper, ["bob", "carol"])] ∧
    (run lobbyState splitTrace).rooms = [⟨10, "general", 0, 2, 0⟩] ∧
    occupancy (run lobbyState splitTrace) 10 = 3 ∧
    sessionsAt (run lobbyState splitTrace) keyTen = 1 := by
  decide

/-- C9 (the code breaks it): alice is in the room of identifier 10, joined under the key
`keyTen`, and her connection is open. Bob sends join_room with `keyTenUpper`, which resolves to
the same room: the one send of the event is bob's `joined_room`, so alice receives no
`user_joined`, and the member set bob is added to does not hold alice. -/
theorem join_under_other_spelling :
    mapGet (run lobbyState aliasTrace).clients 1 = some ⟨11, "alice", some keyTen⟩ ∧
    mapGet (run lobbyState aliasTrace).clients 2 = some ⟨12, "bob", none⟩ ∧
    (run lobbyState aliasTrace).openConns = [1, 2] ∧
    Room.findById (run lobbyState aliasTrace).rooms (some keyTen)
      = some (some ⟨10, "general", 0, 1, 0⟩) ∧
    Room.findById (run lobbyState aliasTrace).rooms (some keyTenUpper)
      = some (some ⟨10, "general", 0, 1, 0⟩) ∧
    (onMessage (run lobbyState aliasTrace) 2 (.join_room (some keyTenUpper)) 4 none).sent
      = [(2, .joined_room (some keyTenUpper) "general")] ∧
    (onMessage (run lobbyState aliasTrace) 2 (.join_room (some keyTenUpper)) 4
      none).state.roomUsers = [(keyTen, ["alice"]), (keyTenUpper, ["bob"])] ∧
    (onMessage (run lobbyState aliasTrace) 2 (.join_room (some keyTenUpper)) 4
      none).state.clients
      = [(1, ⟨11, "alice", some keyTen⟩), (2, ⟨12, "bob", some keyTenUpper⟩)] := by
  decide

/-! ## A join that finds no room -/

theorem findById_throws_iff (rooms : List Room) (roomId : Option RoomKey) :
    Room.findById rooms roomId = none ↔ ∃ key, roomId = some key ∧ castObjectId key = none := by
  unfold Room.findById
  cases roomId with
  | none => simp
  | some key =>
    cases hc : castObjectId key with
    | none => simp [hc]
    | some id => simp [hc]

/-- C13 as stated fails: alice and bob are in the room of key `key1`; alice sends join_room with
the roomId `lobby`, which no cast turns into an identifier. The leave of her room runs, and
then `Room.findById` throws: the reply after the `user_left` envelopes is the generic error,
not `Room not found`. -/
theorem join_uncastable_room :
    mapGet (run (boot [] [] [] 0) bothTrace).clients 1 = some ⟨0, "alice", some key1⟩ ∧
    castObjectId "lobby" = none ∧
    (∀ room, Room.findById (run (boot [] [] [] 0) bothTrace).rooms (some "lobby")
      ≠ some (some room)) ∧
    (onMessage (run (boot [] [] [] 0) bothTrace) 1 (.join_room (some "lobby")) 9 none).sent
      = [(1, .user_left "alice" ["bob"]), (2, .user_left "alice" ["bob"]),
         (1, .error "An error occurred processing your request")] ∧
    mapGet (onMessage (run (boot [] [] [] 0) bothTrace) 1 (.join_room (some "lobby")) 9
      none).state.clients 1 = some ⟨0, "alice", none⟩ := by
  refine ⟨by decide, by decide, ?_, by decide, by decide⟩
  intro room hr
  rw [show Room.findById (run (boot [] [] [] 0) bothTrace).rooms (some "lobby") = none
    from by decide] at hr
  cases hr

/-- C13, amended: in a reachable state, a join_room by a session that is in room `A`, with a
roomId that resolves to no room (store calls succeeding), first runs the leave of `A`:
`user_left` is broadcast to `A`, and only then comes the reply, `Room not found` when the
roomId is null or denotes an identifier, the generic error when the cast of the roomId fails.
Afterwards the session's currentRoom is null, its username is not a member of `A`, the
persisted rooms are those before with the userCount of the room that `A` denotes set to the
size of the member set, which is one less than before when the username was a member, and the
state is not the one before the event. -/
theorem failed_join_leaves_room (s : State) (h : Reachable s) (ws : Conn) (client : Client)
    (A : RoomKey) (roomId : Option RoomKey) (now : Nat)
    (hget : mapGet s.clients ws = some client) (hroom : client.currentRoom = some A)
    (hnone : ∀ room, Room.findById s.rooms roomId ≠ some (some room)) :
    ∃ id, castObjectId A = some id ∧
    ((roomId = none ∨ (roomId.bind castObjectId).isSome = true) →
      (onMessage s ws (.join_room roomId) now none).sent
        = broadcastToRoom s (some A)
            (.user_left client.username (setDelete (members s A) client.username)) none
          ++ [(ws, .error "Room not found")]) ∧
    ((∃ key, roomId = some key ∧ castObjectId key = none) →
      (onMessage s ws (.join_room roomId) now none).sent
        = broadcastToRoom s (some A)
            (.user_left client.username (setDelete (members s A) client.username)) none
          ++ [(ws, .error "An error occurred processing your request")]) ∧
    mapGet (onMessage s ws (.join_room roomId) now none).state.clients ws
      = some { client with currentRoom := none } ∧
    members (onMessage s ws (.join_room roomId) now none).state A
      = setDelete (members s A) client.username ∧
    client.username ∉ members (onMessage s ws (.join_room roomId) now none).state A ∧
    (onMessage s ws (.join_room roomId) now none).state.rooms
      = Room.save s.rooms id (setDelete (members s A) client.username).length ∧
    (∀ room ∈ (onMessage s ws (.join_room roomId) now none).state.rooms, room.id = id →
      room.userCount
        = (members (onMessage s ws (.join_room roomId) now none).state A).length) ∧
    (client.username ∈ members s A →
      (members (onMessage s ws (.join_room roomId) now none).state A).length + 1
        = (members s A).length) ∧
    (onMessage s ws (.join_room roomId) now none).state ≠ s := by
  have hwf := h.wf
  obtain ⟨id, hcast, hleft⟩ := leave_current s hwf ws client A hget hroom
  refine ⟨id, hcast, ?_⟩
  have hstate : (onMessage s ws (.join_room roomId) now none).state
      = { s with
          clients := mapModify s.clients ws (fun c => { c with currentRoom := none }),
          roomUsers := mapModify s.roomUsers A (fun l => setDelete l client.username),
          rooms := Room.save s.rooms id (setDelete (members s A) client.username).length } ∧
      (onMessage s ws (.join_room roomId) now none).sent
        = broadcastToRoom s (some A)
            (.user_left client.username (setDelete (members s A) client.username)) none
          ++ [(ws, .error (if Room.findById s.rooms roomId = none then
                "An error occurred processing your request" else "Room not found"))] := by
    cases hf : Room.findById s.rooms roomId with
    | none =>
      have hf2 : Room.findById
          (Room.save s.rooms id (setDelete (members s A) client.username).length) roomId
          = none := by
        rw [findById_save, hf]
        rfl
      simp only [onMessage, dispatch, handleJoinRoom, hget, hleft, storeCall,
        Bool.false_eq_true, if_false, hf2, throwIn, if_true]
      exact ⟨trivial, trivial⟩
    | some found =>
      cases found with
      | some room => exact absurd hf (hnone room)
      | none =>
        have hf2 : Room.findById
            (Room.save s.rooms id (setDelete (members s A) client.username).length) roomId
            = some none := by
          rw [findById_save, hf]
          rfl
        cases roomId with
        | none =>
          simp only [onMessage, dispatch, handleJoinRoom, hget, hleft, storeCall,
            Bool.false_eq_true, if_false, hf2]
          exact ⟨trivial, by rw [if_neg (by simp)]⟩
        | some key =>
          simp only [onMessage, dispatch, handleJoinRoom, hget, hleft, storeCall,
            Bool.false_eq_true, if_false, hf2]
          exact ⟨trivial, by rw [if_neg (by simp)]⟩
  obtain ⟨hst, hsent⟩ := hstate
  have hmem : members (⟨mapModify s.clients ws (fun c => { c with currentRoom := none }),
        mapModify s.roomUsers A (fun l => setDelete l client.username), s.openConns, s.users,
        Room.save s.rooms id (setDelete (members s A) client.username).length, s.messages,
        s.nextId⟩ : State) A = setDelete (members s A) client.username := by
    have := members_delete s A A client.username
    rw [if_pos rfl] at this
    exact this
  have hclient : mapGet (mapModify s.clients ws (fun c => { c with currentRoom := none })) ws
      = some { client with currentRoom := none } := by
    rw [mapGet_mapModify, if_pos rfl, hget]
    rfl
  rw [hst, hsent]
  refine ⟨?_, ?_, hclient, hmem, ?_, rfl, ?_, ?_, ?_⟩
  · intro hres
    have hne : Room.findById s.rooms roomId ≠ none := by
      intro e
      obtain ⟨key, hk, hc⟩ := (findById_throws_iff s.rooms roomId).1 e
      rcases hres with h1 | h1
      · rw [hk] at h1
        cases h1
      · rw [hk] at h1
        simp [hc] at h1
    rw [if_neg hne]
  · intro hex
    rw [if_pos ((findById_throws_iff s.rooms roomId).2 hex)]
  · show client.username ∉ members _ A
    rw [hmem, mem_setDelete]
    exact fun hn => hn.2 rfl
  · intro room hmemr hid
    show room.userCount = (members _ A).length
    rw [hmem]
    have hm2 : room ∈ Room.save s.rooms id (setDelete (members s A) client.username).length :=
      hmemr
    unfold Room.save at hm2
    obtain ⟨room0, _, rfl⟩ := List.mem_map.1 hm2
    by_cases h0 : room0.id = id
    · simp [h0]
    · simp only [h0, if_false] at hid
  · intro hin
    show (members _ A).length + 1 = _
    rw [hmem, length_setDelete _ _ (members_nodup s hwf A) hin]
  · intro e
    have hc := congrArg (fun t : State => mapGet t.clients ws) e
    simp only [hclient, hget] at hc
    have hr := congrArg Client.currentRoom (Option.some.inj hc)
    rw [hroom] at hr
    cases hr

/-- With alice and bob in the room of key `key1`: alice's join_room to `keyTen`, which denotes
an identifier that no room has, sends `user_left` to both and then `Room not found`; her
join_room to `lobby` sends the same `user_left` and then the generic error; either way alice
is in no room afterwards and the userCount of the room goes from 2 to 1. -/
theorem failed_join_leaves_room_witness :
    Reachable (run (boot [] [] [] 0) bothTrace) ∧
    mapGet (run (boot [] [] [] 0) bothTrace).clients 1 = some ⟨0, "alice", some key1⟩ ∧
    (run (boot [] [] [] 0) bothTrace).rooms = [⟨1, "general", 0, 2, 2⟩] ∧
    (onMessage (run (boot [] [] [] 0) bothTrace) 1 (.join_room (some keyTen)) 9 none).sent
      = [(1, .user_left "alice" ["bob"]), (2, .user_left "alice" ["bob"]),
         (1, .error "Room not found")] ∧
    (onMessage (run (boot [] [] [] 0) bothTrace) 1 (.join_room (some "lobby")) 9 none).sent
      = [(1, .user_left "alice" ["bob"]), (2, .user_left "alice" ["bob"]),
         (1, .error "An error occurred processing your request")] ∧
    mapGet (onMessage (run (boot [] [] [] 0) bothTrace) 1 (.join_room (some keyTen)) 9
      none).state.clients 1 = some ⟨0, "alice", none⟩ ∧
    (onMessage (run (boot [] [] [] 0) bothTrace) 1 (.join_room (some keyTen)) 9
      none).state.rooms = [⟨1, "general", 0, 1, 2⟩] ∧
    (members (onMessage (run (boot [] [] [] 0) bothTrace) 1 (.join_room (some keyTen)) 9
      none).state key1).length + 1 = (members (run (boot [] [] [] 0) bothTrace) key1).length := by
  have hreach : Reachable (run (boot [] [] [] 0) bothTrace) :=
    (Reachable.boot [] [] [] 0).run bothTrace
  obtain ⟨id, hid, h1, _, h3, _, _, h6, _, h8, _⟩ :=
    failed_join_leaves_room (run (boot [] [] [] 0) bothTrace) hreach 1
      ⟨0, "alice", some key1⟩ key1 (some keyTen) 9 (by decide) rfl
      (by
        intro room hr
        rw [show Room.findById (run (boot [] [] [] 0) bothTrace).rooms (some keyTen)
          = some none from by decide] at hr
        cases hr)
  obtain ⟨_, _, _, h2, _⟩ :=
    failed_join_leaves_room (run (boot [] [] [] 0) bothTrace) hreach 1
      ⟨0, "alice", some key1⟩ key1 (some "lobby") 9 (by decide) rfl
      (by
        intro room hr
        rw [show Room.findById (run (boot [] [] [] 0) bothTrace).rooms (some "lobby")
          = none from by decide] at hr
        cases hr)
  have hone : id = 1 := by
    rw [show castObjectId key1 = some 1 from by decide] at hid
    exact (Option.some.inj hid).symm
  subst hone
  exact ⟨hreach, by decide, by decide, (h1 (Or.inr (by decide))).trans (by decide),
    (h2 ⟨"lobby", rfl, by decide⟩).trans (by decide), h3, h6.trans (by decide),
    h8 (by decide)⟩

/-! ## Interleaved authentication -/

/-- A call that is not interleaved with another is `handleAuthentication` with no store
failure. -/
theorem authenticate_alone (s : State) (ws : Conn) (username : String) (now : Nat) :
    Loop.run ⟨s, [], []⟩ [.arrive ws username, .resume ws now, .resume ws now]
      = ⟨(handleAuthentication s ws username now none).state, [],
          (handleAuthentication s ws username now none).sent⟩ := by
  unfold handleAuthentication
  by_cases ht : isUsernameTaken s username = true
  · simp [Loop.run, Loop.turn, authStart, ht]
  · cases hf : User.findOne s.users username with
    | none =>
      simp [Loop.run, Loop.turn, authStart, ht, AuthTask.conn, authResume, hf, storeCall]
    | some user =>
      simp [Loop.run, Loop.turn, authStart, ht, AuthTask.conn, authResume, hf, storeCall]

/-- C12 (the code breaks it): two connections send authenticate alice and the second message
arrives while the call for the first is suspended at `await User.findOne`. Both calls pass
the `isUsernameTaken` check, since neither has reached `clients.set`; both register a session
named alice and both receive `authenticated`; no `auth_error` is sent. When the first call
runs to its end before the second message arrives, the second receives `auth_error`. -/
theorem concurrent_authenticate_both_register :
    (Loop.run ⟨returningState, [], []⟩ racingSchedule).state.clients
      = [(1, ⟨0, "alice", none⟩), (2, ⟨0, "alice", none⟩)] ∧
    (Loop.run ⟨returningState, [], []⟩ racingSchedule).sent
      = [(1, .authenticated 0 "alice"), (2, .authenticated 0 "alice")] ∧
    (Loop.run ⟨returningState, [], []⟩ racingSchedule).pending = [] ∧
    (Loop.run ⟨returningState, [], []⟩ serialSchedule).state.clients
      = [(1, ⟨0, "alice", none⟩)] ∧
    (Loop.run ⟨returningState, [], []⟩ serialSchedule).sent
      = [(1, .authenticated 0 "alice"), (2, .auth_error "Username is already taken")] := by
  decide

end Chat
